import Mathlib

/-!
Verification development for the resilient harvesting core of the
swe-factory data-collection component
(src/data_collection/collect/{utils.py, utils_async.py, build_dataset_async.py}).

The Python source is shallowly embedded: pure string manipulation is
translated to executable functions over `String`/`List Char`; the stateful
fetch loops become fueled recursions over an oracle of response outcomes;
the proxy rotator becomes explicit state passing.  Python string
primitives (`str.split`, `str.replace`, `str.strip`, `str.lower`,
`str.startswith`, `str.endswith`, `str.zfill`, `str(int)`) are modelled by
the `py*` helpers below, defined structurally over `List Char` so that
every definition evaluates inside the kernel.
-/

/-- Characters of Python `str.strip()`'s default whitespace set. -/
def pyWhitespaceChar (c : Char) : Bool :=
  c = ' ' || c = '\t' || c = '\n' || c = '\r' || c = '\x0b' || c = '\x0c'

/-- Python `s.startswith(pre)`. -/
def pyStartsWith (s pre : String) : Bool :=
  pre.data.isPrefixOf s.data

/-- Python `s.endswith(suf)`. -/
def pyEndsWith (s suf : String) : Bool :=
  suf.data.isSuffixOf s.data

/-- Python `s.lower()` (ASCII case folding, which covers the inputs the
classifier sees). -/
def pyLower (s : String) : String :=
  String.mk (s.data.map Char.toLower)

/-- Python `s.strip()`: drop leading and trailing whitespace. -/
def pyStrip (s : String) : String :=
  String.mk (((s.data.dropWhile pyWhitespaceChar).reverse.dropWhile pyWhitespaceChar).reverse)

/-- Split a character list at every character satisfying `p`, keeping empty
pieces, exactly like Python `re.split` on single-character alternatives and
Python `str.split(sep)` for a one-character separator. -/
def pySplitChars (p : Char → Bool) (cs : List Char) : List (List Char) :=
  cs.foldr (fun c acc =>
    match acc with
    | [] => [[c]]
    | g :: gs => if p c then [] :: g :: gs else (c :: g) :: gs) [[]]

/-- Split a string at every character satisfying `p` (pieces as strings). -/
def pySplit (p : Char → Bool) (s : String) : List String :=
  (pySplitChars p s.data).map String.mk

/-- One replacement pass of Python `s.replace(old, new)`: leftmost-match,
non-overlapping, replace all occurrences.  Fueled structural recursion so
the kernel can evaluate it. -/
def pyReplaceFuel (pat rep : List Char) : Nat → List Char → List Char
  | 0, l => l
  | _ + 1, [] => []
  | fuel + 1, c :: rest =>
    if pat ≠ [] ∧ pat.isPrefixOf (c :: rest) then
      rep ++ pyReplaceFuel pat rep fuel (List.drop (pat.length - 1) rest)
    else
      c :: pyReplaceFuel pat rep fuel rest

/-- Python `s.replace(old, new)` (for non-empty `old`, the only use here). -/
def pyReplace (s pat rep : String) : String :=
  String.mk (pyReplaceFuel pat.data rep.data s.data.length s.data)

/-- Decimal digit character, `chr(48 + d)`. -/
def charOfDigit (d : Nat) : Char :=
  Char.ofNat (48 + d)

/-- Decimal representation accumulator for Python `str(n)`, fueled so it is
structurally recursive. -/
def pyStrAux : Nat → Nat → List Char → List Char
  | 0, _, acc => acc
  | fuel + 1, n, acc =>
    if n < 10 then charOfDigit n :: acc
    else pyStrAux fuel (n / 10) (charOfDigit (n % 10) :: acc)

/-- Python `str(n)` for a natural number. -/
def pyStr (n : Nat) : String :=
  String.mk (pyStrAux (n + 1) n [])

/-- Python `s.zfill(w)` for a digit string: left-pad with zeros to width `w`. -/
def pyZfill (w : Nat) (cs : List Char) : List Char :=
  List.replicate (w - cs.length) '0' ++ cs

/-- Left fold reading a decimal digit string back to a number (leading
zeros are harmless).  Used only in proofs, to invert `pyStr`/`pyZfill`. -/
def parseDigits (a : Nat) (cs : List Char) : Nat :=
  cs.foldl (fun x c => x * 10 + (c.toNat - 48)) a

lemma charOfDigit_decode {d : Nat} (h : d < 10) : (charOfDigit d).toNat - 48 = d := by
  revert h
  revert d
  decide

lemma parseDigits_cons (a : Nat) (c : Char) (cs : List Char) :
    parseDigits a (c :: cs) = parseDigits (a * 10 + (c.toNat - 48)) cs := rfl

lemma parseDigits_pyStrAux :
    ∀ (fuel n : Nat) (acc : List Char), n < fuel →
      parseDigits 0 (pyStrAux fuel n acc) = parseDigits n acc := by
  intro fuel
  induction fuel with
  | zero => intro n acc h; omega
  | succ fuel ih =>
    intro n acc h
    by_cases hn : n < 10
    · simp only [pyStrAux, if_pos hn, parseDigits_cons, charOfDigit_decode hn,
        Nat.zero_mul, Nat.zero_add]
    · have hdiv : n / 10 < n := Nat.div_lt_self (by omega) (by omega)
      have hfuel : n / 10 < fuel := by omega
      simp only [pyStrAux, if_neg hn]
      rw [ih (n / 10) _ hfuel, parseDigits_cons,
        charOfDigit_decode (Nat.mod_lt n (by omega))]
      have : n / 10 * 10 + n % 10 = n := by omega
      rw [this]

lemma parseDigits_replicate_zero (k : Nat) (cs : List Char) :
    parseDigits 0 (List.replicate k '0' ++ cs) = parseDigits 0 cs := by
  induction k with
  | zero => rfl
  | succ k ih =>
    simpa [List.replicate_succ, parseDigits_cons] using ih

/-- Round trip: reading back the zero-filled decimal representation of `n`
recovers `n`. -/
lemma parseDigits_pyZfill_pyStr (w n : Nat) :
    parseDigits 0 (pyZfill w (pyStr n).data) = n := by
  have h1 : parseDigits 0 (pyStrAux (n + 1) n []) = n := by
    simpa [parseDigits] using parseDigits_pyStrAux (n + 1) n [] (by omega)
  simpa [pyZfill, pyStr, parseDigits_replicate_zero] using
    (by simpa [pyStr] using h1 :
      parseDigits 0 (pyStr n).data = n)

/-! ## PatchClassifier: `extract_patches` in utils.py and utils_async.py

Both files contain a line-oriented classifier over unified-diff text with a
current-file flag in {None, "test", "diff"}.  The two implementations are
identical except for the Java filename-promotion step (utils_async.py
reassigns `file_name = file_name.replace(".java", "")` while utils.py
discards the result of `replace`).  The external pygments lookup
`get_language_with_pygments` is an abstract parameter `getLang`. -/

/-- The classifier's current-file flag: `"test"` or `"diff"` in the source;
the absent state is `Option.none`. -/
inductive PatchFlag where
  | test : PatchFlag
  | diff : PatchFlag
deriving DecidableEq, BEq, Repr

/-- `set(re.split(r" |_|\/|\.", line.lower()))` membership domain: the
tokens of the lowered line split on space, underscore, slash and dot. -/
def pyWords (line : String) : List String :=
  pySplit (fun c => c = ' ' || c = '_' || c = '/' || c = '.') (pyLower line)

/-- `"test" in words or "tests" in words or "testing" in words`. -/
def testTokens (line : String) : Bool :=
  (pyWords line).contains "test" || (pyWords line).contains "tests" ||
    (pyWords line).contains "testing"

/-- Python `sub in s` substring containment. -/
def containsSub (s sub : String) : Bool :=
  s.data.tails.any (fun t => sub.data.isPrefixOf t)

/-- Python `line.split("/")[-1]` (split always returns a non-empty list). -/
def lastPathSegment (line : String) : String :=
  (pySplit (fun c => c = '/') line).getLastD ""

namespace UtilsAsync

/-- Flag update for one line of `extract_patches` in utils_async.py
(lines 280-316): headers starting `"diff --git a/"` reset the flag via the
test-token check and the per-language acceptance rule; any other line
leaves the flag unchanged.  `repoName` is `repo.name`, `getLang` is
`get_language_with_pygments`. -/
def updateFlag (lang : String) (getLang : String → String) (repoName : String)
    (flag : Option PatchFlag) (line : String) : Option PatchFlag :=
  if pyStartsWith line "diff --git a/" then
    let f0 : Option PatchFlag := if testTokens line then some .test else some .diff
    if lang = "python" then
      if f0 ≠ some .test ∧ ¬ pyEndsWith (pyStrip line) ".py" = true then none else f0
    else if lang = "js" then
      let language := getLang (pyStrip line)
      let isJs := language = "javascript" || language = "typescript" ||
        ((containsSub repoName "webpack" || containsSub repoName "jest") &&
          pyEndsWith (pyStrip line) ".json")
      if f0 ≠ some .test ∧ ¬ isJs = true then none else f0
    else if lang = "java" then
      let fileName := lastPathSegment line
      let f1 : Option PatchFlag :=
        if pyEndsWith fileName ".java" then
          let stripped := pyReplace fileName ".java" ""
          if pyStartsWith stripped "Test" || pyStartsWith stripped "Tests" ||
              pyEndsWith stripped "Test" || pyEndsWith stripped "Tests" then
            some .test
          else f0
        else f0
      let language := getLang (pyStrip line)
      let isJava := language = "java" ||
        (containsSub repoName "netty" &&
          (pyEndsWith (pyStrip line) ".c" || pyEndsWith (pyStrip line) "pom.xml"))
      if f1 ≠ some .test ∧ ¬ isJava = true then none else f1
    else f0
  else flag

end UtilsAsync

namespace Utils

/-- Flag update for one line of `extract_patches` in utils.py (lines
1011-1047).  Identical to the asynchronous version except in the Java
branch: the source computes `file_name.replace(".java", "")` but discards
the result, so the Test/Tests prefix/suffix checks run on the filename
with its `.java` extension still attached. -/
def updateFlag (lang : String) (getLang : String → String) (repoName : String)
    (flag : Option PatchFlag) (line : String) : Option PatchFlag :=
  if pyStartsWith line "diff --git a/" then
    let f0 : Option PatchFlag := if testTokens line then some .test else some .diff
    if lang = "python" then
      if f0 ≠ some .test ∧ ¬ pyEndsWith (pyStrip line) ".py" = true then none else f0
    else if lang = "js" then
      let language := getLang (pyStrip line)
      let isJs := language = "javascript" || language = "typescript" ||
        ((containsSub repoName "webpack" || containsSub repoName "jest") &&
          pyEndsWith (pyStrip line) ".json")
      if f0 ≠ some .test ∧ ¬ isJs = true then none else f0
    else if lang = "java" then
      let fileName := lastPathSegment line
      let f1 : Option PatchFlag :=
        if pyEndsWith fileName ".java" then
          if pyStartsWith fileName "Test" || pyStartsWith fileName "Tests" ||
              pyEndsWith fileName "Test" || pyEndsWith fileName "Tests" then
            some .test
          else f0
        else f0
      let language := getLang (pyStrip line)
      let isJava := language = "java" ||
        (containsSub repoName "netty" &&
          (pyEndsWith (pyStrip line) ".c" || pyEndsWith (pyStrip line) "pom.xml"))
      if f1 ≠ some .test ∧ ¬ isJava = true then none else f1
    else f0
  else flag

end Utils

/-- The shared line loop of both `extract_patches` implementations:
`"index "` metadata lines are skipped entirely; every other line first
updates the flag (headers only) and is then appended to the stream the
updated flag selects.  Returns (final flag, code-change lines, test lines). -/
def processLines (upd : Option PatchFlag → String → Option PatchFlag) :
    Option PatchFlag → List String → Option PatchFlag × List String × List String
  | flag, [] => (flag, [], [])
  | flag, line :: rest =>
    if pyStartsWith line "index " then processLines upd flag rest
    else
      let flag2 := upd flag line
      let r := processLines upd flag2 rest
      match flag2 with
      | some .test => (r.1, r.2.1, line :: r.2.2)
      | some .diff => (r.1, line :: r.2.1, r.2.2)
      | none => r

/-- Routing certificate: annotate each input line with the stream it is
appended to (`some .diff` = code stream, `some .test` = test stream,
`none` = dropped), following exactly the flag evolution of `processLines`. -/
def routeLines (upd : Option PatchFlag → String → Option PatchFlag) :
    Option PatchFlag → List String → List (String × Option PatchFlag)
  | _, [] => []
  | flag, line :: rest =>
    if pyStartsWith line "index " then (line, none) :: routeLines upd flag rest
    else
      let flag2 := upd flag line
      (line, flag2) :: routeLines upd flag2 rest

/-- The line list both `extract_patches` implementations scan: the raw
text with one trailing newline removed, split on newlines
(`patch.split("\n")` after `patch = patch[:-1]`). -/
def diffLines (raw : String) : List String :=
  pySplit (fun c => c = '\n')
    (if pyEndsWith raw "\n" then String.mk raw.data.dropLast else raw)

/-- Shared trailer of both `extract_patches` implementations: split into
lines, run the loop, join each stream with newlines plus a single trailing
newline (empty string for an empty stream), and report
`request_success = True`; the empty fetched text is reported as
`("", "", False)` before any of that. -/
def extractPatchesCore (upd : Option PatchFlag → String → Option PatchFlag)
    (raw : String) : String × String × Bool :=
  if raw = "" then ("", "", false)
  else
    let r := processLines upd none (diffLines raw)
    ((if r.2.1 ≠ [] then String.intercalate "\n" r.2.1 ++ "\n" else ""),
     (if r.2.2 ≠ [] then String.intercalate "\n" r.2.2 ++ "\n" else ""),
     true)

namespace UtilsAsync

/-- `extract_patches` of utils_async.py (lines 257-326), applied to the
text the fetcher returned for `pull["diff_url"]`. -/
def extract_patches (lang : String) (getLang : String → String)
    (repoName : String) (raw : String) : String × String × Bool :=
  extractPatchesCore (updateFlag lang getLang repoName) raw

end UtilsAsync

namespace Utils

/-- `extract_patches` of utils.py (lines 986-1058), applied to the text
`get_with_retries` returned for `pull["diff_url"]`. -/
def extract_patches (lang : String) (getLang : String → String)
    (repoName : String) (raw : String) : String × String × Bool :=
  extractPatchesCore (updateFlag lang getLang repoName) raw

end Utils

/-- Modelled from the external pygments lexer lookup
(`get_language_with_pygments`): lexer name, lowered, chosen by file
extension; used only to instantiate the abstract `getLang` parameter at
concrete inputs. -/
def pygmentsByExt (s : String) : String :=
  if pyEndsWith s ".java" then "java"
  else if pyEndsWith s ".py" then "python"
  else if pyEndsWith s ".js" then "javascript"
  else if pyEndsWith s ".ts" then "typescript"
  else if pyEndsWith s ".json" then "json"
  else "Unknown"

/-! ## ResilientFetcher: `Repo.fetch_with_retries` (utils_async.py, lines
140-242) and `Repo.github_api` (utils.py, lines 176-261)

Each attempt's outcome is drawn from an oracle `resps : Nat → Outcome`
indexed by the running `retries` counter.  Header values are classified by
how Python `int()` treats the string: `absent` (the header is missing, a
default applies or a KeyError is raised), `num n` (parses to `n`), or
`bad` (raises ValueError).  Raising is modelled as `Except.error`; sleeps
and proxy-rotation bookkeeping have no influence on control flow beyond
the `enabled` switch and are not tracked.  Results carry the number of
requests performed. -/

/-- A response header as seen through Python `int()`. -/
inductive HVal where
  | absent : HVal
  | num : Nat → HVal
  | bad : HVal
deriving DecidableEq, Repr

/-- An HTTP response: status code, body, the three headers the fetchers
consult (`X-RateLimit-Remaining`, `X-RateLimit-Reset`, `Retry-After`), and
whether the body parses as JSON (`response.json()` succeeds) - consulted,
uncaught, by the synchronous fetcher's 403-with-remaining-quota debug
print. -/
structure HResp where
  status : Nat
  body : String
  remaining : HVal
  reset : HVal
  retryAfter : HVal
  jsonOk : Bool
deriving DecidableEq, Repr

/-- One attempt's outcome: a response, or a transport fault (timeout,
reset, disconnect - the exception classes both fetchers catch). -/
inductive Outcome where
  | resp : HResp → Outcome
  | netErr : Outcome
deriving DecidableEq, Repr

/-- `int(headers.get(name, default))`: default on a missing header, the
value on a well-formed one, ValueError on a malformed one. -/
def hvalInt (v : HVal) (dflt : Nat) : Except Unit Nat :=
  match v with
  | .absent => .ok dflt
  | .num n => .ok n
  | .bad => .error ()

/-- The retry loop of `fetch_with_retries` (utils_async.py): fuel is
`max_retries - retries`.  Returns the body and the number of requests
performed, or `Except.error` where the source would raise an uncaught
ValueError parsing a header. -/
def fetchAsyncLoop (enabled : Bool) (resps : Nat → Outcome) :
    Nat → Nat → Except Unit (String × Nat)
  | retries, 0 => .ok ("", retries)
  | retries, fuel + 1 =>
    match resps retries with
    | .netErr => fetchAsyncLoop enabled resps (retries + 1) fuel
    | .resp r =>
      if r.status = 200 then .ok (r.body, retries + 1)
      else if r.status = 403 then
        match hvalInt r.remaining 0 with
        | .error e => .error e
        | .ok rem =>
          if rem = 0 ∧ enabled = false then
            match hvalInt r.reset 0 with
            | .error e => .error e
            | .ok _ => fetchAsyncLoop enabled resps (retries + 1) fuel
          else fetchAsyncLoop enabled resps (retries + 1) fuel
      else if r.status = 502 ∨ r.status = 503 then
        fetchAsyncLoop enabled resps (retries + 1) fuel
      else if r.status = 429 then
        match hvalInt r.retryAfter 60 with
        | .error e => .error e
        | .ok _ => fetchAsyncLoop enabled resps (retries + 1) fuel
      else if r.status = 404 then .ok ("", retries + 1)
      else fetchAsyncLoop enabled resps (retries + 1) fuel

/-- `Repo.fetch_with_retries(url, max_retries=5)` of utils_async.py:
starts with `retries = 0`; exhausting retries yields the empty string. -/
def fetch_with_retries (enabled : Bool) (resps : Nat → Outcome)
    (maxRetries : Nat) : Except Unit (String × Nat) :=
  fetchAsyncLoop enabled resps 0 maxRetries

/-- The retry loop of `Repo.github_api` (utils.py).  Notable differences
from the asynchronous fetcher, all mirrored from the source: a 403 is
rate-limit-handled only when `X-RateLimit-Remaining` is present, and with
remaining quota the source prints `response.json()` - raising on an
unparseable body - and returns the response itself; with zero quota and no
proxy the source indexes `headers['X-RateLimit-Reset']`, so a missing or
malformed header raises; a 404 response matches no status branch and falls
into the generic retry arm (the `except HTTP404NotFoundError` clause can
only catch exceptions, and `requests.get` signals 404 via the status
code). -/
def fetchSyncLoop (enabled : Bool) (resps : Nat → Outcome) :
    Nat → Nat → Except Unit (Option HResp × Nat)
  | retries, 0 => .ok (none, retries)
  | retries, fuel + 1 =>
    match resps retries with
    | .netErr => fetchSyncLoop enabled resps (retries + 1) fuel
    | .resp r =>
      if r.status = 200 then .ok (some r, retries + 1)
      else if r.status = 403 ∧ r.remaining ≠ .absent then
        match hvalInt r.remaining 0 with
        | .error e => .error e
        | .ok rem =>
          if rem = 0 then
            if enabled then fetchSyncLoop enabled resps (retries + 1) fuel
            else
              match r.reset with
              | .num _ => fetchSyncLoop enabled resps (retries + 1) fuel
              | _ => .error ()
          else if r.jsonOk then .ok (some r, retries + 1)
          else .error ()
      else if r.status = 503 ∨ r.status = 502 then
        fetchSyncLoop enabled resps (retries + 1) fuel
      else if r.status = 429 then
        match hvalInt r.retryAfter 60 with
        | .error e => .error e
        | .ok _ => fetchSyncLoop enabled resps (retries + 1) fuel
      else fetchSyncLoop enabled resps (retries + 1) fuel

/-- `Repo.github_api(url, token, max_retries=5)` of utils.py: starts with
`retries = 0`; exhausting retries yields `None`. -/
def github_api (enabled : Bool) (resps : Nat → Outcome)
    (maxRetries : Nat) : Except Unit (Option HResp × Nat) :=
  fetchSyncLoop enabled resps 0 maxRetries

/-! ## IdentityRotator: `ProxyRotator` (utils.py lines 50-144,
utils_async.py lines 40-105)

The rotator's mutable attributes become a record threaded explicitly.  The
md5 hash of the repository name and the process-lifetime random offset are
opaque naturals (`baseHash`, `randomOffset`); the arithmetic combining them
with the rotation counter, and the `str(...).zfill(8)` formatting, are
embedded exactly. -/

/-- State and configuration of one `ProxyRotator` instance. -/
structure RotState where
  requestCount : Nat
  maxRequestsPerIp : Nat
  currentSessionId : Option String
  rotationCount : Nat
  enabled : Bool
  useSession : Bool
  country : String
  password : String
  host : String
  httpPort : String
  baseHash : Nat
  randomOffset : Nat
deriving DecidableEq, Repr

/-- `ProxyRotator._generate_new_session_id`:
`str((base_hash + rotation_count + random_offset) % 100000000).zfill(8)`. -/
def generate_new_session_id (s : RotState) : String :=
  String.mk (pyZfill 8
    (pyStr ((s.baseHash + s.rotationCount + s.randomOffset) % 100000000)).data)

/-- `ProxyRotator.get_proxies`: rotate when the request counter has
reached the ceiling, lazily regenerate the session id, and build the proxy
mapping (both entries hold the same URL). -/
def get_proxies (s : RotState) : Option (String × String) × RotState :=
  if s.enabled = false then (none, s)
  else
    let s1 := if s.requestCount ≥ s.maxRequestsPerIp then
        { s with rotationCount := s.rotationCount + 1, requestCount := 0,
                 currentSessionId := none }
      else s
    let s2 := if s1.currentSessionId = none then
        { s1 with currentSessionId := some (generate_new_session_id s1) }
      else s1
    let username := if s2.useSession then
        "proxy-cot-" ++ s2.country ++ "-sid-" ++ (s2.currentSessionId.getD "")
      else "proxy"
    let url := "http://" ++ username ++ ":" ++ s2.password ++ "@" ++ s2.host ++
      ":" ++ s2.httpPort
    (some (url, url), s2)

/-- `ProxyRotator.increment_request_count` (the logging in the utils.py
variant has no state effect). -/
def increment_request_count (s : RotState) : RotState :=
  { s with requestCount := s.requestCount + 1 }

/-- The fetchers' per-request rotator discipline
(`increment_request_count()` then `get_proxies()`): state after `n`
recorded requests. -/
def rotTrace (s0 : RotState) : Nat → RotState
  | 0 => s0
  | n + 1 => (get_proxies (increment_request_count (rotTrace s0 n))).2

/-! ## HarvestPipeline: build_dataset_async.py

`process_single_pr` together with `create_instance` decides, per pull
request, whether the successful-fetch ledger is appended and whether an
instance line is written to the superset output (and additionally to the
filtered output).  Within one run, neither `seen_prs` nor
`successful_instances` is mutated in memory, so each candidate's decision
depends only on the candidate, the oracles, and the startup state; the
concurrent fan-out is therefore modelled as an independent map over the
work list.  Network behaviour is an oracle: `rawDiff` is the text the
fetcher returns for `pull["diff_url"]` (empty string = fetch failure or
404), and `probHints` the pair `extract_problem_statement_and_hints`
returns.  `created_at` timestamps and the cutoff are modelled as already
parsed (`datetime.strptime` applied to well-formed `%Y-%m-%dT%H:%M:%SZ`
strings is order-preserving). -/

/-- A pull-request work item: the fields of the input JSON line that the
pipeline reads.  `fullName` is `base.repo.full_name`, `shortName` the
repository name component (`Repo.name`), `createdAt` the parsed
`created_at` timestamp. -/
structure Pull where
  fullName : String
  shortName : String
  number : Nat
  mergedAt : Option String
  resolvedIssues : List String
  baseSha : String
  createdAt : Nat
deriving DecidableEq, Repr

/-- An output record, with the fields `create_instance` assembles. -/
structure Instance where
  repo : String
  pullNumber : Nat
  instanceId : String
  issueNumbers : List String
  baseCommit : String
  patch : String
  testPatch : String
  problemStatement : String
  hintsText : String
  createdAt : Nat
deriving DecidableEq, Repr

/-- The instance id `(repo_name + "-" + str(number)).replace("/", "__")`
(computed identically in `process_single_pr` from
`pull["base"]["repo"]["full_name"]` and in `create_instance` from
`repo.repo_name`, which `main` constructs from that same full name). -/
def mkId (p : Pull) : String :=
  pyReplace (p.fullName ++ "-" ++ pyStr p.number) "/" "__"

/-- `is_valid_pull`: the PR is merged and has at least one linked issue. -/
def is_valid_pull (p : Pull) : Bool :=
  p.mergedAt.isSome && !p.resolvedIssues.isEmpty

/-- `is_valid_instance`: code patch and problem statement non-empty (the
`None` case of the source cannot arise; both fields are built as
strings). -/
def is_valid_instance (i : Instance) : Bool :=
  !(i.patch = "") && !(i.problemStatement = "")

/-- `has_test_patch`: the test patch is non-blank after trimming. -/
def has_test_patch (i : Instance) : Bool :=
  !(pyStrip i.testPatch = "")

/-- The instance dict `create_instance` returns. -/
def mkInstance (p : Pull) (patch testPatch prob hints : String) : Instance :=
  { repo := p.fullName
    pullNumber := p.number
    instanceId := mkId p
    issueNumbers := p.resolvedIssues
    baseCommit := p.baseSha
    patch := patch
    testPatch := testPatch
    problemStatement := prob
    hintsText := hints
    createdAt := p.createdAt }

/-- `process_single_pr` (build_dataset_async.py lines 109-189, inlining
`create_instance`, lines 20-57) for one candidate: the first component is
the id appended to `successful_requests.txt` (when the diff fetch
succeeded), the second the emitted record together with the flag saying
whether it is also written to the filtered output.  Duplicates are skipped
before any network call; unmerged or issue-less PRs are dropped; the
ledger append happens inside `create_instance`, before the cutoff and
validity checks. -/
def process_single_pr (lang : String) (getLang : String → String)
    (cutoff : Nat) (rawDiff : Pull → String)
    (probHints : Pull → String × String) (seen succ : List String)
    (p : Pull) : Option String × Option (Instance × Bool) :=
  let instanceId := mkId p
  if seen.contains instanceId || succ.contains instanceId then (none, none)
  else if !is_valid_pull p then (none, none)
  else
    let ex := UtilsAsync.extract_patches lang getLang p.shortName (rawDiff p)
    let ledger := if ex.2.2 then some instanceId else none
    let ph := probHints p
    let inst := mkInstance p ex.1 ex.2.1 ph.1 ph.2
    let emit :=
      if cutoff ≤ p.createdAt then none
      else if is_valid_instance inst then some (inst, has_test_patch inst)
      else none
    (ledger, emit)

/-- One run of `main`'s per-PR fan-out over the whole work list: the
emitted superset records (with their filtered-output flags) and the ids
appended to the successful-fetch ledger. -/
def runPipeline (lang : String) (getLang : String → String) (cutoff : Nat)
    (rawDiff : Pull → String) (probHints : Pull → String × String)
    (seen succ : List String) (pulls : List Pull) :
    List (Instance × Bool) × List String :=
  (pulls.filterMap (fun p =>
      (process_single_pr lang getLang cutoff rawDiff probHints seen succ p).2),
   pulls.filterMap (fun p =>
      (process_single_pr lang getLang cutoff rawDiff probHints seen succ p).1))

/-- The instance ids of a run's superset output, as `main` reconstructs
them when it replays the `.all` file at startup. -/
def emittedIds (out : List (Instance × Bool)) : List String :=
  out.map (fun ib => ib.1.instanceId)

/-- Whether a candidate passes every check of `process_single_pr` when
nothing is skipped: merged with issues, diff fetched, inside the cutoff,
and valid.  This is `process_single_pr` run against empty dedup state. -/
def wouldEmit (lang : String) (getLang : String → String) (cutoff : Nat)
    (rawDiff : Pull → String) (probHints : Pull → String × String)
    (p : Pull) : Bool :=
  (process_single_pr lang getLang cutoff rawDiff probHints [] [] p).2.isSome

/-! ## ParallelPageCache: `Repo.get_all_pulls_with_official_github_api`
(utils.py lines 560-712), cache-enabled mode

The page cache directory is a partial map from page number to the page's
item list; `oracle page attempt` is the outcome of the attempt-th request
for a page inside `fetch_page` (`some items` = HTTP 200 with parseable
body, `none` = any failing status, rotation, or exception).  The thread
pool writes each page to its own file, so the fan-out is modelled as a
fold; `page1` is the outcome of the initial page-1 discovery request
together with the last-page number parsed from the `Link` header
(defaulting to 1).  A failed discovery falls back to sequential, uncached
pagination, modelled as `Option.none`. -/

/-- The on-disk page cache: page number to item list. -/
def Cache (Item : Type) : Type := Nat → Option (List Item)

/-- Writing one page file. -/
def updateCache {Item : Type} (c : Cache Item) (p : Nat) (v : List Item) :
    Cache Item :=
  fun q => if q = p then some v else c q

/-- The first success among `fetch_page`'s three attempts for a page. -/
def firstHit {Item : Type} (oracle : Nat → Nat → Option (List Item))
    (p : Nat) : Option (List Item) :=
  match oracle p 0 with
  | some d => some d
  | none =>
    match oracle p 1 with
    | some d => some d
    | none => oracle p 2

/-- `fetch_page` (utils.py lines 650-681), cache effect: the first
successful attempt writes the page file; a page that fails all three
attempts leaves the cache untouched. -/
def fetch_page {Item : Type} (oracle : Nat → Nat → Option (List Item))
    (c : Cache Item) (p : Nat) : Cache Item :=
  match firstHit oracle p with
  | some d => updateCache c p d
  | none => c

/-- `Repo.get_all_pulls_with_official_github_api` (cache mode): determine
the page count from the metadata record or the page-1 discovery fetch,
fetch the complement of the cached pages, and assemble pages 1..last in
ascending order from the cache, missing pages contributing nothing.
Returns the combined item list and the final cache, or `none` when page-1
discovery fails and the source falls back to sequential pagination. -/
def get_all_pulls (Item : Type) (oracle : Nat → Nat → Option (List Item))
    (page1 : Option (List Item × Nat)) (init : Cache Item)
    (meta : Option Nat) : Option (List Item × Cache Item) :=
  match meta with
  | some lastPage =>
    let toFetch := (List.range' 1 lastPage).filter (fun p => (init p).isNone)
    let fc := toFetch.foldl (fetch_page oracle) init
    some ((List.range' 1 lastPage).flatMap (fun p => (fc p).getD []), fc)
  | none =>
    match page1 with
    | none => none
    | some (d1, lastPage) =>
      let c1 := updateCache init 1 d1
      if lastPage ≤ 1 then some (d1, c1)
      else
        let toFetch := (List.range' 1 lastPage).filter (fun p => (c1 p).isNone)
        let fc := toFetch.foldl (fetch_page oracle) c1
        some ((List.range' 1 lastPage).flatMap (fun p => (fc p).getD []), fc)

/-! ## Spec-side predicates about diff headers

These restate, as standalone predicates, the per-language acceptance rule
and the Java filename promotion that `updateFlag` applies to a header
line; they are used to phrase the classification claims. -/

/-- The configured language profile's file-acceptance check for a header
line, exactly as the classifier computes it (`.py` extension for python;
pygments javascript/typescript or the webpack/jest JSON allowance for js;
pygments java or the netty native/build allowance for java; every other
profile accepts everything). -/
def sourceAccepted (lang : String) (getLang : String → String)
    (repoName : String) (line : String) : Bool :=
  if lang = "python" then pyEndsWith (pyStrip line) ".py"
  else if lang = "js" then
    let language := getLang (pyStrip line)
    language = "javascript" || language = "typescript" ||
      ((containsSub repoName "webpack" || containsSub repoName "jest") &&
        pyEndsWith (pyStrip line) ".json")
  else if lang = "java" then
    let language := getLang (pyStrip line)
    language = "java" ||
      (containsSub repoName "netty" &&
        (pyEndsWith (pyStrip line) ".c" || pyEndsWith (pyStrip line) "pom.xml"))
  else true

/-- The Java-profile filename promotion as utils_async.py applies it: the
header's last path segment ends in `.java` and, with the extension
removed, starts or ends with Test/Tests. -/
def javaTestFileAsync (line : String) : Bool :=
  let fileName := lastPathSegment line
  pyEndsWith fileName ".java" &&
    (let stripped := pyReplace fileName ".java" ""
     pyStartsWith stripped "Test" || pyStartsWith stripped "Tests" ||
       pyEndsWith stripped "Test" || pyEndsWith stripped "Tests")

/-- The Java-profile filename promotion as utils.py applies it: the
`replace` result is discarded, so the Test/Tests checks run on the
filename with `.java` still attached. -/
def javaTestFileSync (line : String) : Bool :=
  let fileName := lastPathSegment line
  pyEndsWith fileName ".java" &&
    (pyStartsWith fileName "Test" || pyStartsWith fileName "Tests" ||
      pyEndsWith fileName "Test" || pyEndsWith fileName "Tests")

/-- Status-404 responses, the case the claim singles out. -/
def isStatus404 (o : Outcome) : Bool :=
  match o with
  | .resp r => r.status == 404
  | .netErr => false

/-- Responses whose headers survive every `int()` the asynchronous fetcher
can apply. -/
def goodAsync (o : Outcome) : Bool :=
  match o with
  | .netErr => true
  | .resp r =>
    decide (r.remaining ≠ .bad) && decide (r.reset ≠ .bad) &&
      decide (r.retryAfter ≠ .bad)

/-- Responses that drive `github_api` through no uncaught failure:
well-formed `X-RateLimit-Remaining`/`Retry-After`, a JSON-parseable body
(for the 403-with-quota debug print), and, when no rotation is
configured, a present well-formed `X-RateLimit-Reset`. -/
def goodSync (enabled : Bool) (o : Outcome) : Bool :=
  match o with
  | .netErr => true
  | .resp r =>
    decide (r.remaining ≠ .bad) && decide (r.retryAfter ≠ .bad) && r.jsonOk &&
      (enabled || (match r.reset with | .num _ => true | _ => false))

/-- The session id `_generate_new_session_id` produces at rotation index
`r` for hash `base` and offset `off`. -/
def genFor (base off r : Nat) : String :=
  String.mk (pyZfill 8 (pyStr ((base + r + off) % 100000000)).data)

/-! ## Lemmas about the classifier loop -/

lemma startsWith_diffgit_not_index {l : String}
    (h : pyStartsWith l "diff --git a/" = true) :
    pyStartsWith l "index " = false := by
  unfold pyStartsWith at h ⊢
  rw [List.isPrefixOf_iff_prefix] at h
  rw [show ("diff --git a/").data = 'd' :: "iff --git a/".data from rfl] at h
  cases hd : l.data with
  | nil => rw [hd] at h; exact absurd h (by simp)
  | cons b bs =>
    rw [hd] at h
    rw [List.cons_prefix_cons] at h
    rw [show ("index ").data = 'i' :: "ndex ".data from rfl]
    by_contra hcon
    rw [Bool.not_eq_false, List.isPrefixOf_iff_prefix, List.cons_prefix_cons] at hcon
    have : ('i' : Char) = 'd' := hcon.1.trans h.1.symm
    exact absurd this (by decide)

lemma routeLines_map_fst (upd : Option PatchFlag → String → Option PatchFlag) :
    ∀ (flag : Option PatchFlag) (lines : List String),
      (routeLines upd flag lines).map Prod.fst = lines := by
  intro flag lines
  induction lines generalizing flag with
  | nil => rfl
  | cons line rest ih =>
    by_cases h : pyStartsWith line "index " = true
    · simp [routeLines, h, ih]
    · simp only [Bool.not_eq_true] at h
      simp [routeLines, h, ih]

lemma processLines_route_diff (upd : Option PatchFlag → String → Option PatchFlag) :
    ∀ (flag : Option PatchFlag) (lines : List String),
      (processLines upd flag lines).2.1 =
        ((routeLines upd flag lines).filter
          (fun e => decide (e.2 = some PatchFlag.diff))).map Prod.fst := by
  intro flag lines
  induction lines generalizing flag with
  | nil => rfl
  | cons line rest ih =>
    by_cases h : pyStartsWith line "index " = true
    · simp [processLines, routeLines, h, ih]
    · simp only [Bool.not_eq_true] at h
      rcases hf : upd flag line with _ | f
      · simp [processLines, routeLines, h, hf, ih]
      · cases f <;> simp [processLines, routeLines, h, hf, ih]

lemma processLines_route_test (upd : Option PatchFlag → String → Option PatchFlag) :
    ∀ (flag : Option PatchFlag) (lines : List String),
      (processLines upd flag lines).2.2 =
        ((routeLines upd flag lines).filter
          (fun e => decide (e.2 = some PatchFlag.test))).map Prod.fst := by
  intro flag lines
  induction lines generalizing flag with
  | nil => rfl
  | cons line rest ih =>
    by_cases h : pyStartsWith line "index " = true
    · simp [processLines, routeLines, h, ih]
    · simp only [Bool.not_eq_true] at h
      rcases hf : upd flag line with _ | f
      · simp [processLines, routeLines, h, hf, ih]
      · cases f <;> simp [processLines, routeLines, h, hf, ih]

lemma updateFlag_async_nonheader (lang : String) (g : String → String)
    (n : String) (flag : Option PatchFlag) {line : String}
    (h : pyStartsWith line "diff --git a/" = false) :
    UtilsAsync.updateFlag lang g n flag line = flag := by
  simp [UtilsAsync.updateFlag, h]

lemma updateFlag_sync_nonheader (lang : String) (g : String → String)
    (n : String) (flag : Option PatchFlag) {line : String}
    (h : pyStartsWith line "diff --git a/" = false) :
    Utils.updateFlag lang g n flag line = flag := by
  simp [Utils.updateFlag, h]

lemma processLines_steady (upd : Option PatchFlag → String → Option PatchFlag)
    (f : PatchFlag) :
    ∀ (lines : List String), (∀ l ∈ lines, upd (some f) l = some f) →
      processLines upd (some f) lines =
        (some f,
         (if f = .diff then lines.filter (fun l => !(pyStartsWith l "index ")) else []),
         (if f = .test then lines.filter (fun l => !(pyStartsWith l "index ")) else [])) := by
  intro lines
  induction lines with
  | nil => intro _; cases f <;> rfl
  | cons line rest ih =>
    intro h
    have hrest := ih (fun l hl => h l (List.mem_cons_of_mem _ hl))
    by_cases hi : pyStartsWith line "index " = true
    · simp [processLines, hi, hrest, List.filter_cons, hi]
    · simp only [Bool.not_eq_true] at hi
      have hline := h line (List.mem_cons_self _ _)
      cases f <;>
        simp [processLines, hi, hline, hrest, List.filter_cons, hi]

lemma processLines_block (upd : Option PatchFlag → String → Option PatchFlag)
    (f0 : Option PatchFlag) (f : PatchFlag) (h : String) (body : List String)
    (hh : upd f0 h = some f)
    (hni : pyStartsWith h "index " = false)
    (hb : ∀ l ∈ body, upd (some f) l = some f) :
    processLines upd f0 (h :: body) =
      (some f,
       (if f = .diff then (h :: body).filter (fun l => !(pyStartsWith l "index ")) else []),
       (if f = .test then (h :: body).filter (fun l => !(pyStartsWith l "index ")) else [])) := by
  have hrest := processLines_steady upd f body hb
  cases f <;>
    simp [processLines, hni, hh, hrest, List.filter_cons, hni]

lemma processLines_append (upd : Option PatchFlag → String → Option PatchFlag) :
    ∀ (xs ys : List String) (f : Option PatchFlag),
      processLines upd f (xs ++ ys) =
        ((processLines upd (processLines upd f xs).1 ys).1,
         (processLines upd f xs).2.1 ++ (processLines upd (processLines upd f xs).1 ys).2.1,
         (processLines upd f xs).2.2 ++ (processLines upd (processLines upd f xs).1 ys).2.2) := by
  intro xs
  induction xs with
  | nil => intro ys f; simp [processLines]
  | cons x rest ih =>
    intro ys f
    by_cases hi : pyStartsWith x "index " = true
    · simp [processLines, hi, ih]
    · simp only [Bool.not_eq_true] at hi
      rcases hf : upd f x with _ | fl
      · simp [processLines, hi, hf, ih]
      · cases fl <;> simp [processLines, hi, hf, ih]

lemma updateFlag_async_test_header (lang : String) (g : String → String)
    (n : String) (f : Option PatchFlag) {line : String}
    (h1 : pyStartsWith line "diff --git a/" = true)
    (h2 : testTokens line = true) :
    UtilsAsync.updateFlag lang g n f line = some .test := by
  simp only [UtilsAsync.updateFlag, h1, h2, if_true]
  split_ifs <;> simp_all

lemma updateFlag_sync_test_header (lang : String) (g : String → String)
    (n : String) (f : Option PatchFlag) {line : String}
    (h1 : pyStartsWith line "diff --git a/" = true)
    (h2 : testTokens line = true) :
    Utils.updateFlag lang g n f line = some .test := by
  simp only [Utils.updateFlag, h1, h2, if_true]
  split_ifs <;> simp_all

lemma updateFlag_async_src_header (lang : String) (g : String → String)
    (n : String) (f : Option PatchFlag) {line : String}
    (h1 : pyStartsWith line "diff --git a/" = true)
    (h2 : testTokens line = false)
    (h3 : sourceAccepted lang g n line = true)
    (h4 : lang = "java" → javaTestFileAsync line = false) :
    UtilsAsync.updateFlag lang g n f line = some .diff := by
  by_cases hpy : lang = "python"
  · subst hpy
    simp [sourceAccepted] at h3
    simp [UtilsAsync.updateFlag, h1, h2, h3]
  · by_cases hjs : lang = "js"
    · subst hjs
      simp [sourceAccepted] at h3
      simp [UtilsAsync.updateFlag, h1, h2]
      tauto
    · by_cases hjava : lang = "java"
      · subst hjava
        have hpromo := h4 rfl
        simp [sourceAccepted] at h3
        simp only [javaTestFileAsync, Bool.and_eq_false_iff] at hpromo
        simp [UtilsAsync.updateFlag, h1, h2]
        rcases hpromo with hpromo | hpromo
        · simp_all
          intro hg
          rcases h3 with h3 | ⟨hn, hcd⟩
          · exact absurd h3 hg
          · refine ⟨hn, fun hc => ?_⟩
            rcases hcd with hcd | hcd
            · rw [hcd] at hc
              exact Bool.noConfusion hc
            · exact hcd
        · simp_all
          intro hg
          rcases h3 with h3 | ⟨hn, hcd⟩
          · exact absurd h3 hg
          · refine ⟨hn, fun hc => ?_⟩
            rcases hcd with hcd | hcd
            · rw [hcd] at hc
              exact Bool.noConfusion hc
            · exact hcd
      · simp [UtilsAsync.updateFlag, h1, h2, hpy, hjs, hjava]

lemma updateFlag_sync_src_header (lang : String) (g : String → String)
    (n : String) (f : Option PatchFlag) {line : String}
    (h1 : pyStartsWith line "diff --git a/" = true)
    (h2 : testTokens line = false)
    (h3 : sourceAccepted lang g n line = true)
    (h4 : lang = "java" → javaTestFileSync line = false) :
    Utils.updateFlag lang g n f line = some .diff := by
  by_cases hpy : lang = "python"
  · subst hpy
    simp [sourceAccepted] at h3
    simp [Utils.updateFlag, h1, h2, h3]
  · by_cases hjs : lang = "js"
    · subst hjs
      simp [sourceAccepted] at h3
      simp [Utils.updateFlag, h1, h2]
      tauto
    · by_cases hjava : lang = "java"
      · subst hjava
        have hpromo := h4 rfl
        simp [sourceAccepted] at h3
        simp only [javaTestFileSync, Bool.and_eq_false_iff] at hpromo
        simp [Utils.updateFlag, h1, h2]
        rcases hpromo with hpromo | hpromo
        · simp_all
          intro hg
          rcases h3 with h3 | ⟨hn, hcd⟩
          · exact absurd h3 hg
          · refine ⟨hn, fun hc => ?_⟩
            rcases hcd with hcd | hcd
            · rw [hcd] at hc
              exact Bool.noConfusion hc
            · exact hcd
        · simp_all
          intro hg
          rcases h3 with h3 | ⟨hn, hcd⟩
          · exact absurd h3 hg
          · refine ⟨hn, fun hc => ?_⟩
            rcases hcd with hcd | hcd
            · rw [hcd] at hc
              exact Bool.noConfusion hc
            · exact hcd
      · simp [Utils.updateFlag, h1, h2, hpy, hjs, hjava]

lemma processLines_two_blocks (upd : Option PatchFlag → String → Option PatchFlag)
    (th sh : String) (tb sb : List String) (lines : List String)
    (horder : lines = (th :: tb) ++ (sh :: sb) ∨ lines = (sh :: sb) ++ (th :: tb))
    (hth : ∀ f, upd f th = some .test)
    (hsh : ∀ f, upd f sh = some .diff)
    (hthni : pyStartsWith th "index " = false)
    (hshni : pyStartsWith sh "index " = false)
    (htb : ∀ f (l : String), l ∈ tb → upd f l = f)
    (hsb : ∀ f (l : String), l ∈ sb → upd f l = f) :
    (processLines upd none lines).2.1 =
        (sh :: sb).filter (fun l => !(pyStartsWith l "index ")) ∧
      (processLines upd none lines).2.2 =
        (th :: tb).filter (fun l => !(pyStartsWith l "index ")) := by
  have hT : ∀ f0, processLines upd f0 (th :: tb) =
      (some .test, [], (th :: tb).filter (fun l => !(pyStartsWith l "index "))) := by
    intro f0
    have := processLines_block upd f0 .test th tb (hth f0) hthni
      (fun l hl => htb _ l hl)
    simpa using this
  have hS : ∀ f0, processLines upd f0 (sh :: sb) =
      (some .diff, (sh :: sb).filter (fun l => !(pyStartsWith l "index ")), []) := by
    intro f0
    have := processLines_block upd f0 .diff sh sb (hsh f0) hshni
      (fun l hl => hsb _ l hl)
    simpa using this
  rcases horder with horder | horder <;> rw [horder, processLines_append]
  · rw [hT none]
    rw [show (some PatchFlag.test, ([] : List String),
        (th :: tb).filter (fun l => !(pyStartsWith l "index "))).1 =
        some PatchFlag.test from rfl, hS (some .test)]
    simp
  · rw [hS none]
    rw [show (some PatchFlag.diff,
        (sh :: sb).filter (fun l => !(pyStartsWith l "index ")),
        ([] : List String)).1 = some PatchFlag.diff from rfl, hT (some .diff)]
    simp

/-! ## Lemmas about the fetchers -/

lemma fetchSyncLoop_all404 (enabled : Bool) (resps : Nat → Outcome) :
    ∀ (fuel retries : Nat),
      (∀ n, retries ≤ n → n < retries + fuel → isStatus404 (resps n) = true) →
      fetchSyncLoop enabled resps retries fuel = .ok (none, retries + fuel) := by
  intro fuel
  induction fuel with
  | zero => intro retries _; rfl
  | succ fuel ih =>
    intro retries h
    have h0 := h retries (Nat.le_refl _) (by omega)
    cases hr : resps retries with
    | netErr => rw [hr] at h0; exact absurd h0 (by simp [isStatus404])
    | resp r =>
      rw [hr] at h0
      simp only [isStatus404, beq_iff_eq] at h0
      have hrec := ih (retries + 1) (fun n hn hn2 => h n (by omega) (by omega))
      have harith : retries + 1 + fuel = retries + (fuel + 1) := by omega
      rw [harith] at hrec
      simp [fetchSyncLoop, hr, h0, hrec]

lemma enabled_true_of_not_false {b : Bool} (h : ¬ b = false) : b = true := by
  cases b
  · exact absurd rfl h
  · rfl

lemma fetchAsyncLoop_total (enabled : Bool) (resps : Nat → Outcome) :
    ∀ (fuel retries : Nat),
      (∀ n, n < retries + fuel → goodAsync (resps n) = true) →
      ∃ b a, fetchAsyncLoop enabled resps retries fuel = .ok (b, a) ∧
        a ≤ retries + fuel := by
  intro fuel
  induction fuel with
  | zero => intro retries _; exact ⟨"", retries, rfl, Nat.le_refl _⟩
  | succ fuel ih =>
    intro retries h
    obtain ⟨b, a, heq, hle⟩ := ih (retries + 1) (fun n hn => h n (by omega))
    cases hr : resps retries with
    | netErr => exact ⟨b, a, by simp [fetchAsyncLoop, hr, heq], by omega⟩
    | resp r =>
      have hgood := h retries (by omega)
      rw [hr] at hgood
      simp only [goodAsync, Bool.and_eq_true, decide_eq_true_eq] at hgood
      obtain ⟨⟨hrem, hres⟩, hra⟩ := hgood
      simp only [fetchAsyncLoop, hr]
      by_cases h200 : r.status = 200
      · exact ⟨r.body, retries + 1, by simp [h200], by omega⟩
      · by_cases h403 : r.status = 403
        · rcases hvr : r.remaining with _ | nr
          · by_cases henb : enabled = false
            · subst henb
              rcases hvs : r.reset with _ | ns
              · exact ⟨b, a, by simp [h200, h403, hvr, hvs, hvalInt, heq], by omega⟩
              · exact ⟨b, a, by simp [h200, h403, hvr, hvs, hvalInt, heq], by omega⟩
              · exact absurd hvs (by simp [hres])
            · have ht := enabled_true_of_not_false henb
              subst ht
              exact ⟨b, a, by simp [h200, h403, hvr, hvalInt, heq], by omega⟩
          · by_cases hz0 : nr = 0
            · subst hz0
              by_cases henb : enabled = false
              · subst henb
                rcases hvs : r.reset with _ | ns
                · exact ⟨b, a, by simp [h200, h403, hvr, hvs, hvalInt, heq], by omega⟩
                · exact ⟨b, a, by simp [h200, h403, hvr, hvs, hvalInt, heq], by omega⟩
                · exact absurd hvs (by simp [hres])
              · have ht := enabled_true_of_not_false henb
                subst ht
                exact ⟨b, a, by simp [h200, h403, hvr, hvalInt, heq], by omega⟩
            · exact ⟨b, a, by simp [h200, h403, hvr, hvalInt, hz0, heq], by omega⟩
          · exact absurd hvr (by simp [hrem])
        · by_cases h5x : r.status = 502 ∨ r.status = 503
          · exact ⟨b, a, by simp [h200, h403, h5x, heq], by omega⟩
          · by_cases h429 : r.status = 429
            · rcases hva : r.retryAfter with _ | na
              · exact ⟨b, a, by simp [h200, h403, h5x, h429, hva, hvalInt, heq], by omega⟩
              · exact ⟨b, a, by simp [h200, h403, h5x, h429, hva, hvalInt, heq], by omega⟩
              · exact absurd hva (by simp [hra])
            · by_cases h404 : r.status = 404
              · exact ⟨"", retries + 1, by simp [h200, h403, h5x, h429, h404], by omega⟩
              · exact ⟨b, a, by simp [h200, h403, h5x, h429, h404, heq], by omega⟩

lemma fetchSyncLoop_total (enabled : Bool) (resps : Nat → Outcome) :
    ∀ (fuel retries : Nat),
      (∀ n, n < retries + fuel → goodSync enabled (resps n) = true) →
      ∃ res a, fetchSyncLoop enabled resps retries fuel = .ok (res, a) ∧
        a ≤ retries + fuel := by
  intro fuel
  induction fuel with
  | zero => intro retries _; exact ⟨none, retries, rfl, Nat.le_refl _⟩
  | succ fuel ih =>
    intro retries h
    obtain ⟨res, a, heq, hle⟩ := ih (retries + 1) (fun n hn => h n (by omega))
    cases hr : resps retries with
    | netErr => exact ⟨res, a, by simp [fetchSyncLoop, hr, heq], by omega⟩
    | resp r =>
      have hgood := h retries (by omega)
      rw [hr] at hgood
      simp only [goodSync, Bool.and_eq_true, decide_eq_true_eq] at hgood
      obtain ⟨⟨⟨hrem, hra⟩, hjs⟩, hor⟩ := hgood
      simp only [fetchSyncLoop, hr]
      by_cases h200 : r.status = 200
      · exact ⟨some r, retries + 1, by simp [h200], by omega⟩
      · by_cases h403a : r.status = 403 ∧ r.remaining ≠ HVal.absent
        · obtain ⟨h403, hremA⟩ := h403a
          rcases hvr : r.remaining with _ | nr
          · exact absurd hvr hremA
          · by_cases hz : nr = 0
            · subst hz
              cases henb : enabled with
              | true =>
                exact ⟨res, a, by
                  simp [h200, h403, hremA, hvr, hvalInt, henb ▸ heq], by omega⟩
              | false =>
                rw [henb] at hor
                simp only [Bool.false_or] at hor
                rcases hvs : r.reset with _ | ns
                · rw [hvs] at hor; exact absurd hor (by simp)
                · exact ⟨res, a, by
                    simp [h200, h403, hremA, hvr, hvs, hvalInt, henb ▸ heq], by omega⟩
                · rw [hvs] at hor; exact absurd hor (by simp)
            · exact ⟨some r, retries + 1, by
                simp [h200, h403, hremA, hvr, hvalInt, hz, hjs], by omega⟩
          · exact absurd hvr (by simp [hrem])
        · by_cases h5x : r.status = 503 ∨ r.status = 502
          · exact ⟨res, a, by simp [h200, h403a, h5x, heq], by omega⟩
          · by_cases h429 : r.status = 429
            · rcases hva : r.retryAfter with _ | na
              · exact ⟨res, a, by simp [h200, h403a, h5x, h429, hva, hvalInt, heq], by omega⟩
              · exact ⟨res, a, by simp [h200, h403a, h5x, h429, hva, hvalInt, heq], by omega⟩
              · exact absurd hva (by simp [hra])
            · exact ⟨res, a, by simp [h200, h403a, h5x, h429, heq], by omega⟩

/-! ## Lemmas about the pipeline -/

lemma extractPatchesCore_flag (upd : Option PatchFlag → String → Option PatchFlag)
    (raw : String) : (extractPatchesCore upd raw).2.2 = false ↔ raw = "" := by
  by_cases h : raw = "" <;> simp [extractPatchesCore, h]

lemma extractPatchesCore_patch_of_flag
    (upd : Option PatchFlag → String → Option PatchFlag) {raw : String}
    (h : (extractPatchesCore upd raw).1 ≠ "") :
    (extractPatchesCore upd raw).2.2 = true := by
  by_cases hr : raw = ""
  · exact absurd (by simp [extractPatchesCore, hr]) h
  · simp [extractPatchesCore, hr]

lemma process_single_pr_emit (lang : String) (g : String → String)
    (cutoff : Nat) (rd : Pull → String) (ph : Pull → String × String)
    (seen succ : List String) (p : Pull) (ib : Instance × Bool)
    (h : (process_single_pr lang g cutoff rd ph seen succ p).2 = some ib) :
    ib.1.instanceId = mkId p ∧
      (process_single_pr lang g cutoff rd ph seen succ p).1 = some (mkId p) := by
  unfold process_single_pr at h ⊢
  by_cases hskip : (seen.contains (mkId p) || succ.contains (mkId p)) = true
  · rw [if_pos hskip] at h; exact absurd h (by simp)
  · rw [if_neg hskip] at h ⊢
    by_cases hval : is_valid_pull p = true
    · rw [if_neg (by simp [hval])] at h ⊢
      by_cases hcut : cutoff ≤ p.createdAt
      · simp only [if_pos hcut] at h; exact absurd h (by simp)
      · simp only [if_neg hcut] at h
        by_cases hvi : is_valid_instance
            (mkInstance p (UtilsAsync.extract_patches lang g p.shortName (rd p)).1
              (UtilsAsync.extract_patches lang g p.shortName (rd p)).2.1
              (ph p).1 (ph p).2) = true
        · simp only [if_pos hvi] at h
          have hio : ib = (mkInstance p
              (UtilsAsync.extract_patches lang g p.shortName (rd p)).1
              (UtilsAsync.extract_patches lang g p.shortName (rd p)).2.1
              (ph p).1 (ph p).2, _) := (Option.some_inj.mp h).symm
          constructor
          · rw [hio]
            rfl
          · have hpatch : (UtilsAsync.extract_patches lang g p.shortName (rd p)).1 ≠ "" := by
              simp only [is_valid_instance, mkInstance, Bool.and_eq_true,
                Bool.not_eq_true'] at hvi
              simpa using hvi.1
            have hok := extractPatchesCore_patch_of_flag
              (UtilsAsync.updateFlag lang g p.shortName) hpatch
            simp only [UtilsAsync.extract_patches] at hok ⊢
            simp [hok]
        · simp only [if_neg hvi] at h; exact absurd h (by simp)
    · rw [if_pos (by simp [hval])] at h
      exact absurd h (by simp)


lemma process_single_pr_skipped (lang : String) (g : String → String)
    (cutoff : Nat) (rd : Pull → String) (ph : Pull → String × String)
    {seen succ : List String} {p : Pull}
    (h : (seen.contains (mkId p) || succ.contains (mkId p)) = true) :
    process_single_pr lang g cutoff rd ph seen succ p = (none, none) := by
  unfold process_single_pr
  rw [if_pos h]

lemma process_single_pr_same_skip (lang : String) (g : String → String)
    (cutoff : Nat) (rd : Pull → String) (ph : Pull → String × String)
    {seen succ seen' succ' : List String} (p : Pull)
    (h : (seen.contains (mkId p) || succ.contains (mkId p)) =
      (seen'.contains (mkId p) || succ'.contains (mkId p))) :
    process_single_pr lang g cutoff rd ph seen succ p =
      process_single_pr lang g cutoff rd ph seen' succ' p := by
  unfold process_single_pr
  simp only [h]

lemma process_single_pr_emit_not_skipped (lang : String) (g : String → String)
    (cutoff : Nat) (rd : Pull → String) (ph : Pull → String × String)
    {seen succ : List String} {p : Pull} {ib : Instance × Bool}
    (h : (process_single_pr lang g cutoff rd ph seen succ p).2 = some ib) :
    (seen.contains (mkId p) || succ.contains (mkId p)) = false := by
  by_cases hskip : (seen.contains (mkId p) || succ.contains (mkId p)) = true
  · rw [process_single_pr_skipped lang g cutoff rd ph hskip] at h
    exact absurd h (by simp)
  · exact Bool.not_eq_true _ ▸ (by simpa using hskip)

lemma emittedIds_eq_filterMap (lang : String) (g : String → String)
    (cutoff : Nat) (rd : Pull → String) (ph : Pull → String × String)
    (seen succ : List String) (pulls : List Pull) :
    emittedIds (runPipeline lang g cutoff rd ph seen succ pulls).1 =
      pulls.filterMap (fun p =>
        ((process_single_pr lang g cutoff rd ph seen succ p).2).map
          (fun ib => ib.1.instanceId)) := by
  simp only [runPipeline, emittedIds]
  exact List.map_filterMap _ _ _

lemma emittedIds_subset_ledger (lang : String) (g : String → String)
    (cutoff : Nat) (rd : Pull → String) (ph : Pull → String × String)
    (seen succ : List String) (pulls : List Pull) (i : String)
    (h : i ∈ emittedIds (runPipeline lang g cutoff rd ph seen succ pulls).1) :
    i ∈ (runPipeline lang g cutoff rd ph seen succ pulls).2 := by
  rw [emittedIds_eq_filterMap] at h
  obtain ⟨p, hp, hf⟩ := List.mem_filterMap.mp h
  obtain ⟨ib, hib, hid⟩ := Option.map_eq_some'.mp hf
  obtain ⟨hinst, hled⟩ := process_single_pr_emit lang g cutoff rd ph seen succ p ib hib
  refine List.mem_filterMap.mpr ⟨p, hp, ?_⟩
  rw [hled, ← hid, hinst]

lemma filter_map_filter {α β : Type} (w : α → Bool) (q : β → Bool) (m : α → β) :
    ∀ (l : List α), ((l.filter w).map m).filter q =
      l.filterMap (fun x => if w x && q (m x) then some (m x) else none) := by
  intro l
  induction l with
  | nil => rfl
  | cons x rest ih =>
    by_cases hw : w x = true
    · by_cases hq : q (m x) = true
      · simp [List.filter_cons, List.filterMap_cons, hw, hq, ih]
      · simp only [Bool.not_eq_true] at hq
        simp [List.filter_cons, List.filterMap_cons, hw, hq, ih]
    · simp only [Bool.not_eq_true] at hw
      simp [List.filter_cons, List.filterMap_cons, hw, ih]

lemma resume_per_pull (lang : String) (g : String → String) (cutoff : Nat)
    (rd : Pull → String) (ph : Pull → String × String)
    (em1 led1 : List String) (hsub : ∀ i, i ∈ em1 → i ∈ led1) (p : Pull) :
    ((process_single_pr lang g cutoff rd ph em1 led1 p).2).map
        (fun ib => ib.1.instanceId) =
      if wouldEmit lang g cutoff rd ph p && !(led1.contains (mkId p)) then
        some (mkId p)
      else none := by
  by_cases hled : mkId p ∈ led1
  · have hskip : (em1.contains (mkId p) || led1.contains (mkId p)) = true := by
      simp [hled]
    rw [process_single_pr_skipped lang g cutoff rd ph hskip]
    simp [hled]
  · have hem : mkId p ∉ em1 := fun hmem => hled (hsub _ hmem)
    have heq := @process_single_pr_same_skip lang g cutoff rd ph em1 led1 [] [] p
      (by simp [hem, hled])
    rw [heq]
    cases hcase : (process_single_pr lang g cutoff rd ph [] [] p).2 with
    | none => simp [wouldEmit, hcase, hled]
    | some ib =>
      obtain ⟨hinst, _⟩ :=
        process_single_pr_emit lang g cutoff rd ph [] [] p ib hcase
      simp [wouldEmit, hcase, hinst, hled]

lemma foldl_fetch_page {Item : Type} (oracle : Nat → Nat → Option (List Item)) :
    ∀ (l : List Nat) (c : Cache Item) (q : Nat),
      (l.foldl (fetch_page oracle) c) q =
        if q ∈ l ∧ (firstHit oracle q).isSome = true then firstHit oracle q
        else c q := by
  intro l
  induction l with
  | nil => intro c q; simp
  | cons p rest ih =>
    intro c q
    simp only [List.foldl_cons]
    rw [ih]
    by_cases hq : q ∈ rest ∧ (firstHit oracle q).isSome = true
    · rw [if_pos hq, if_pos ⟨List.mem_cons_of_mem p hq.1, hq.2⟩]
    · rw [if_neg hq]
      by_cases hqp : q = p
      · subst hqp
        cases hhit : firstHit oracle q with
        | none =>
          rw [if_neg (fun hc => by simpa [hhit] using hc.2)]
          simp [fetch_page, hhit]
        | some d =>
          rw [if_pos ⟨List.mem_cons_self q rest, by simp [hhit]⟩]
          simp [fetch_page, hhit, updateCache]
      · have htotal : ¬(q ∈ p :: rest ∧ (firstHit oracle q).isSome = true) := by
          intro hc
          rcases List.mem_cons.mp hc.1 with h | h
          · exact hqp h
          · exact hq ⟨h, hc.2⟩
        rw [if_neg htotal]
        cases hhit : firstHit oracle p with
        | none => simp [fetch_page, hhit]
        | some d => simp [fetch_page, hhit, updateCache, hqp]

/-! ## Lemmas about the rotator -/

lemma generate_new_session_id_eq (s : RotState) :
    generate_new_session_id s = genFor s.baseHash s.randomOffset s.rotationCount := rfl

lemma parse_genFor (base off r : Nat) :
    parseDigits 0 (genFor base off r).data = (base + r + off) % 100000000 := by
  simpa [genFor] using parseDigits_pyZfill_pyStr 8 ((base + r + off) % 100000000)

lemma genFor_succ_ne (base off r : Nat) : genFor base off r ≠ genFor base off (r + 1) := by
  intro h
  have hp := congrArg (fun s => parseDigits 0 s.data) h
  simp only [parse_genFor] at hp
  omega

lemma mod_div_succ_boundary {i m : Nat} (hm : 1 ≤ m) (h : i % m + 1 ≥ m) :
    (i + 1) % m = 0 ∧ (i + 1) / m = i / m + 1 := by
  have hlt : i % m < m := Nat.mod_lt i (by omega)
  have hi1 : i + 1 = m * (i / m) + m := by
    have := Nat.div_add_mod i m
    omega
  constructor
  · rw [hi1, Nat.mul_add_mod, Nat.mod_self]
  · rw [hi1, Nat.mul_add_div (by omega), Nat.div_self (by omega)]

lemma mod_div_succ_inner {i m : Nat} (hm : 1 ≤ m) (h : i % m + 1 < m) :
    (i + 1) % m = i % m + 1 ∧ (i + 1) / m = i / m := by
  have hi1 : i + 1 = m * (i / m) + (i % m + 1) := by
    have := Nat.div_add_mod i m
    omega
  constructor
  · rw [hi1, Nat.mul_add_mod, Nat.mod_eq_of_lt h]
  · rw [hi1, Nat.mul_add_div (by omega), Nat.div_eq_of_lt h, Nat.add_zero]

lemma rotTrace_char (s0 : RotState) (hen : s0.enabled = true)
    (h0 : s0.requestCount = 0) (hsid : s0.currentSessionId = none)
    (hm : 1 ≤ s0.maxRequestsPerIp) :
    ∀ i, 1 ≤ i →
      rotTrace s0 i = { s0 with
        requestCount := i % s0.maxRequestsPerIp,
        rotationCount := s0.rotationCount + i / s0.maxRequestsPerIp,
        currentSessionId := some (genFor s0.baseHash s0.randomOffset
          (s0.rotationCount + i / s0.maxRequestsPerIp)) } := by
  obtain ⟨rc0, m, sid0, rot, en, us, co, pw, ho, hp, bh, ro⟩ := s0
  simp only at h0 hsid hen hm ⊢
  subst h0 hsid hen
  intro i
  induction i with
  | zero => intro h; exact absurd h (by omega)
  | succ i ih =>
    intro _
    by_cases hi0 : i = 0
    · subst hi0
      show (get_proxies (increment_request_count (rotTrace _ 0))).2 = _
      by_cases hb : 0 + 1 ≥ m
      · have hm1 : m = 1 := by omega
        subst hm1
        simp [rotTrace, get_proxies, increment_request_count,
          generate_new_session_id_eq, genFor]
      · rw [show (0 + 1) % m = 1 from Nat.mod_eq_of_lt (by omega),
          show (0 + 1) / m = 0 from Nat.div_eq_of_lt (by omega)]
        simp [rotTrace, get_proxies, increment_request_count, hb,
          generate_new_session_id_eq, genFor]
    · have hge : 1 ≤ i := by omega
      show (get_proxies (increment_request_count (rotTrace _ i))).2 = _
      rw [ih hge]
      by_cases hb : i % m + 1 ≥ m
      · obtain ⟨he1, he2⟩ := mod_div_succ_boundary hm hb
        rw [he1, he2]
        simp [get_proxies, increment_request_count, hb,
          generate_new_session_id_eq, genFor, Nat.add_assoc]
      · obtain ⟨he1, he2⟩ := @mod_div_succ_inner i m hm (by omega)
        rw [he1, he2]
        simp [get_proxies, increment_request_count, hb,
          generate_new_session_id_eq, genFor]

/-! ## Claim theorems -/

/-- C2 counterexample: the claim as stated fails for the java profile.
The diff has exactly two file blocks, one under a `tests/` path and one
under `src/` whose `.java` extension is accepted by the profile; yet the
`src/FooTest.java` block's lines all land in the test stream (the Java
filename promotion fires on the Test suffix), so the code stream is empty
instead of holding the src file's lines. -/
theorem C2_counterexample :
    UtilsAsync.extract_patches "java" pygmentsByExt "x"
        "diff --git a/tests/A.java b/tests/A.java\n+t\ndiff --git a/src/FooTest.java b/src/FooTest.java\n+s\n" =
      ("",
       "diff --git a/tests/A.java b/tests/A.java\n+t\ndiff --git a/src/FooTest.java b/src/FooTest.java\n+s\n",
       true) := by decide

/-- C2 (amended): for a fetched diff whose line list is exactly two file
blocks - one header with a tests/ token, one header without test tokens
that the configured language profile accepts as a source file and, for the
java profile, whose filename does not trigger the Test/Tests promotion -
both classifiers put precisely the non-`"index "` lines of the tests/
block in the test stream and precisely the non-`"index "` lines of the
src block in the code stream, and report success. -/
theorem C2_patch_classification_amended
    (lang : String) (g : String → String) (name raw : String)
    (th sh : String) (tb sb : List String)
    (hraw : raw ≠ "")
    (hsplit : diffLines raw = (th :: tb) ++ (sh :: sb) ∨
      diffLines raw = (sh :: sb) ++ (th :: tb))
    (hth : pyStartsWith th "diff --git a/" = true)
    (htt : testTokens th = true)
    (hsh : pyStartsWith sh "diff --git a/" = true)
    (hst : testTokens sh = false)
    (hacc : sourceAccepted lang g name sh = true)
    (hpa : lang = "java" → javaTestFileAsync sh = false)
    (hps : lang = "java" → javaTestFileSync sh = false)
    (htb : ∀ l ∈ tb, pyStartsWith l "diff --git a/" = false)
    (hsb : ∀ l ∈ sb, pyStartsWith l "diff --git a/" = false) :
    UtilsAsync.extract_patches lang g name raw =
      (String.intercalate "\n"
          ((sh :: sb).filter (fun l => !(pyStartsWith l "index "))) ++ "\n",
       String.intercalate "\n"
          ((th :: tb).filter (fun l => !(pyStartsWith l "index "))) ++ "\n",
       true) ∧
    Utils.extract_patches lang g name raw =
      (String.intercalate "\n"
          ((sh :: sb).filter (fun l => !(pyStartsWith l "index "))) ++ "\n",
       String.intercalate "\n"
          ((th :: tb).filter (fun l => !(pyStartsWith l "index "))) ++ "\n",
       true) := by
  have hthni := startsWith_diffgit_not_index hth
  have hshni := startsWith_diffgit_not_index hsh
  have hne1 : (sh :: sb).filter (fun l => !(pyStartsWith l "index ")) ≠ [] := by
    rw [List.filter_cons_of_pos (by simp [hshni])]
    exact List.cons_ne_nil _ _
  have hne2 : (th :: tb).filter (fun l => !(pyStartsWith l "index ")) ≠ [] := by
    rw [List.filter_cons_of_pos (by simp [hthni])]
    exact List.cons_ne_nil _ _
  constructor
  · obtain ⟨hc, htst⟩ := processLines_two_blocks
      (UtilsAsync.updateFlag lang g name) th sh tb sb (diffLines raw) hsplit
      (fun f => updateFlag_async_test_header lang g name f hth htt)
      (fun f => updateFlag_async_src_header lang g name f hsh hst hacc hpa)
      hthni hshni
      (fun f l hl => updateFlag_async_nonheader lang g name f (htb l hl))
      (fun f l hl => updateFlag_async_nonheader lang g name f (hsb l hl))
    simp only [UtilsAsync.extract_patches, extractPatchesCore, if_neg hraw]
    rw [hc, htst]
    simp [hne1, hne2]
  · obtain ⟨hc, htst⟩ := processLines_two_blocks
      (Utils.updateFlag lang g name) th sh tb sb (diffLines raw) hsplit
      (fun f => updateFlag_sync_test_header lang g name f hth htt)
      (fun f => updateFlag_sync_src_header lang g name f hsh hst hacc hps)
      hthni hshni
      (fun f l hl => updateFlag_sync_nonheader lang g name f (htb l hl))
      (fun f l hl => updateFlag_sync_nonheader lang g name f (hsb l hl))
    simp only [Utils.extract_patches, extractPatchesCore, if_neg hraw]
    rw [hc, htst]
    simp [hne1, hne2]

/-- C2 witness: the amended theorem applied to a concrete two-block python
diff (the src block carries an `"index "` metadata line, which is dropped). -/
theorem C2_witness :
    UtilsAsync.extract_patches "python" pygmentsByExt "x"
        "diff --git a/tests/t_test.py b/tests/t_test.py\n+t\ndiff --git a/src/x.py b/src/x.py\nindex 12\n+s\n" =
      ("diff --git a/src/x.py b/src/x.py\n+s\n",
       "diff --git a/tests/t_test.py b/tests/t_test.py\n+t\n", true) ∧
    Utils.extract_patches "python" pygmentsByExt "x"
        "diff --git a/tests/t_test.py b/tests/t_test.py\n+t\ndiff --git a/src/x.py b/src/x.py\nindex 12\n+s\n" =
      ("diff --git a/src/x.py b/src/x.py\n+s\n",
       "diff --git a/tests/t_test.py b/tests/t_test.py\n+t\n", true) := by
  have h := C2_patch_classification_amended "python" pygmentsByExt "x"
    "diff --git a/tests/t_test.py b/tests/t_test.py\n+t\ndiff --git a/src/x.py b/src/x.py\nindex 12\n+s\n"
    "diff --git a/tests/t_test.py b/tests/t_test.py"
    "diff --git a/src/x.py b/src/x.py"
    ["+t"] ["index 12", "+s"]
    (by decide) (Or.inl (by decide)) (by decide) (by decide) (by decide)
    (by decide) (by decide) (fun hc => absurd hc (by decide))
    (fun hc => absurd hc (by decide)) (by decide) (by decide)
  exact ⟨by rw [h.1]; decide, by rw [h.2]; decide⟩

/-- C3: the claim holds in the asynchronous classifier but not in the
synchronous one.  In utils.py the result of `file_name.replace(".java", "")`
is discarded, so the Test/Tests suffix check runs against the filename
with `.java` still attached and never matches; the header for
`src/FooTest.java` therefore keeps the flag at code ("diff") in utils.py
while utils_async.py promotes it to test, and the sync classifier routes
the file's lines into the code patch. -/
theorem C3_java_promotion_divergence :
    UtilsAsync.updateFlag "java" pygmentsByExt "x" none
        "diff --git a/src/FooTest.java b/src/FooTest.java" = some PatchFlag.test ∧
    Utils.updateFlag "java" pygmentsByExt "x" none
        "diff --git a/src/FooTest.java b/src/FooTest.java" = some PatchFlag.diff ∧
    javaTestFileAsync "diff --git a/src/FooTest.java b/src/FooTest.java" = true ∧
    Utils.extract_patches "java" pygmentsByExt "x"
        "diff --git a/src/FooTest.java b/src/FooTest.java\n+x\n" =
      ("diff --git a/src/FooTest.java b/src/FooTest.java\n+x\n", "", true) := by
  decide

/-- C9: stream disjointness.  Each input line occurrence is appended to at
most one output stream: annotating every line with its destination
(`routeLines`) reproduces the input, and the code and test streams of the
classifier loop are exactly the projections of the disjoint
`some diff` / `some test` annotation classes, lines annotated `none`
(current-file flag absent, or `"index "` metadata) reaching neither - in
both the utils_async.py and the utils.py implementation, for every
language profile. -/
theorem C9_stream_disjointness (lang : String) (g : String → String)
    (name : String) (flag : Option PatchFlag) (lines : List String) :
    ((routeLines (UtilsAsync.updateFlag lang g name) flag lines).map Prod.fst = lines ∧
     (processLines (UtilsAsync.updateFlag lang g name) flag lines).2.1 =
       ((routeLines (UtilsAsync.updateFlag lang g name) flag lines).filter
         (fun e => decide (e.2 = some PatchFlag.diff))).map Prod.fst ∧
     (processLines (UtilsAsync.updateFlag lang g name) flag lines).2.2 =
       ((routeLines (UtilsAsync.updateFlag lang g name) flag lines).filter
         (fun e => decide (e.2 = some PatchFlag.test))).map Prod.fst) ∧
    ((routeLines (Utils.updateFlag lang g name) flag lines).map Prod.fst = lines ∧
     (processLines (Utils.updateFlag lang g name) flag lines).2.1 =
       ((routeLines (Utils.updateFlag lang g name) flag lines).filter
         (fun e => decide (e.2 = some PatchFlag.diff))).map Prod.fst ∧
     (processLines (Utils.updateFlag lang g name) flag lines).2.2 =
       ((routeLines (Utils.updateFlag lang g name) flag lines).filter
         (fun e => decide (e.2 = some PatchFlag.test))).map Prod.fst) :=
  ⟨⟨routeLines_map_fst _ _ _, processLines_route_diff _ _ _,
    processLines_route_test _ _ _⟩,
   ⟨routeLines_map_fst _ _ _, processLines_route_diff _ _ _,
    processLines_route_test _ _ _⟩⟩

/-- C4 counterexample: a sequence of pure 404 responses drives the
synchronous `github_api` through all five attempts (the 404 falls into the
generic retry arm; the `except HTTP404NotFoundError` clause cannot fire on
a `requests` status code), returning `None` only after exhausting the
retry budget - not the immediate first-attempt return the claim states
for both implementations. -/
theorem C4_counterexample :
    github_api false (fun _ => Outcome.resp
      { status := 404, body := "x", remaining := HVal.absent,
        reset := HVal.absent, retryAfter := HVal.absent, jsonOk := true }) 5 =
      .ok (none, 5) := rfl

/-- C4 (amended): the asynchronous fetcher returns the empty-string
sentinel immediately on the first 404, after exactly one request and no
retry; the synchronous fetcher instead treats 404 as an unclassified
status and retries it, returning `None` only after consuming all five
attempts. -/
theorem C4_notfound_amended :
    (∀ (enabled : Bool) (resps : Nat → Outcome) (r : HResp),
      resps 0 = Outcome.resp r → r.status = 404 →
      fetch_with_retries enabled resps 5 = .ok ("", 1)) ∧
    (∀ (enabled : Bool) (resps : Nat → Outcome),
      (∀ n, n < 5 → isStatus404 (resps n) = true) →
      github_api enabled resps 5 = .ok (none, 5)) := by
  constructor
  · intro enabled resps r h0 h404
    simp [fetch_with_retries, fetchAsyncLoop, h0, h404]
  · intro enabled resps h
    simpa [github_api] using
      fetchSyncLoop_all404 enabled resps 5 0 (fun n h1 h2 => h n (by omega))

/-- C4 witness: both amended conclusions at the constant-404 oracle. -/
theorem C4_witness :
    fetch_with_retries false (fun _ => Outcome.resp
      { status := 404, body := "y", remaining := HVal.absent,
        reset := HVal.absent, retryAfter := HVal.absent, jsonOk := true }) 5 = .ok ("", 1) ∧
    github_api true (fun _ => Outcome.resp
      { status := 404, body := "y", remaining := HVal.absent,
        reset := HVal.absent, retryAfter := HVal.absent, jsonOk := true }) 5 = .ok (none, 5) :=
  ⟨C4_notfound_amended.1 false _ _ rfl rfl,
   C4_notfound_amended.2 true _ (fun n _ => by decide)⟩

/-- C5 counterexample: a 429 response whose `Retry-After` header does not
parse as an integer makes the asynchronous fetcher raise (the `int()` call
sits outside any handler), refuting the claim that no exception escapes
for every outcome sequence including malformed headers. -/
theorem C5_counterexample :
    fetch_with_retries false (fun _ => Outcome.resp
      { status := 429, body := "", remaining := HVal.absent,
        reset := HVal.absent, retryAfter := HVal.bad, jsonOk := true }) 5 = .error () := rfl

/-- C5 (amended): whenever every consulted rate-limit header is absent or
a well-formed integer (and, for the synchronous fetcher, response bodies
parse as JSON and, without rotation, `X-RateLimit-Reset` is present and
well-formed), a fetch call terminates after at most the 5-attempt ceiling
and returns a body or the failure sentinel, with no exception - in both
implementations.  Malformed headers escape as uncaught
ValueError/KeyError, as the counterexample shows. -/
theorem C5_fetch_totality_amended :
    (∀ (enabled : Bool) (resps : Nat → Outcome),
      (∀ n, n < 5 → goodAsync (resps n) = true) →
      ∃ b a, fetch_with_retries enabled resps 5 = .ok (b, a) ∧ a ≤ 5) ∧
    (∀ (enabled : Bool) (resps : Nat → Outcome),
      (∀ n, n < 5 → goodSync enabled (resps n) = true) →
      ∃ res a, github_api enabled resps 5 = .ok (res, a) ∧ a ≤ 5) := by
  constructor
  · intro enabled resps h
    simpa [fetch_with_retries] using
      fetchAsyncLoop_total enabled resps 5 0 (fun n hn => h n (by omega))
  · intro enabled resps h
    simpa [github_api] using
      fetchSyncLoop_total enabled resps 5 0 (fun n hn => h n (by omega))

/-- C5 witness: both totality conclusions at the constant transport-fault
oracle. -/
theorem C5_witness :
    (∃ b a, fetch_with_retries true (fun _ => Outcome.netErr) 5 =
      .ok (b, a) ∧ a ≤ 5) ∧
    (∃ res a, github_api true (fun _ => Outcome.netErr) 5 =
      .ok (res, a) ∧ a ≤ 5) :=
  ⟨C5_fetch_totality_amended.1 true _ (fun n _ => by decide),
   C5_fetch_totality_amended.2 true _ (fun n _ => by decide)⟩

/-- C6: validity gating.  A processed candidate whose code patch or
problem statement is empty is emitted to neither output (the emit
component is `none`); one that passes every check but whose test patch is
blank after trimming is emitted to the superset output with the
filtered-output flag `false`. -/
theorem C6_validity_gating (lang : String) (g : String → String)
    (cutoff : Nat) (rd : Pull → String) (ph : Pull → String × String)
    (seen succ : List String) (p : Pull) :
    ((UtilsAsync.extract_patches lang g p.shortName (rd p)).1 = "" ∨
        (ph p).1 = "" →
      (process_single_pr lang g cutoff rd ph seen succ p).2 = none) ∧
    ((seen.contains (mkId p) || succ.contains (mkId p)) = false →
      is_valid_pull p = true →
      p.createdAt < cutoff →
      (UtilsAsync.extract_patches lang g p.shortName (rd p)).1 ≠ "" →
      (ph p).1 ≠ "" →
      pyStrip (UtilsAsync.extract_patches lang g p.shortName (rd p)).2.1 = "" →
      (process_single_pr lang g cutoff rd ph seen succ p).2 =
        some (mkInstance p
          (UtilsAsync.extract_patches lang g p.shortName (rd p)).1
          (UtilsAsync.extract_patches lang g p.shortName (rd p)).2.1
          (ph p).1 (ph p).2, false)) := by
  constructor
  · intro hempty
    unfold process_single_pr
    by_cases hskip : (seen.contains (mkId p) || succ.contains (mkId p)) = true
    · rw [if_pos hskip]
    · rw [if_neg hskip]
      by_cases hval : is_valid_pull p = true
      · rw [if_neg (by simp [hval])]
        simp only []
        by_cases hcut : cutoff ≤ p.createdAt
        · rw [if_pos hcut]
        · rw [if_neg hcut]
          have hvi : is_valid_instance (mkInstance p
              (UtilsAsync.extract_patches lang g p.shortName (rd p)).1
              (UtilsAsync.extract_patches lang g p.shortName (rd p)).2.1
              (ph p).1 (ph p).2) = false := by
            rcases hempty with he | he <;>
              simp [is_valid_instance, mkInstance, he]
          rw [if_neg (by simp [hvi])]
      · rw [if_pos (by simp [hval])]
  · intro hskip hval hcut hpatch hprob htest
    obtain ⟨hs1, hs2⟩ := Bool.or_eq_false_iff.mp hskip
    unfold process_single_pr
    rw [if_neg (by
      simp only [Bool.or_eq_true, not_or, Bool.not_eq_true]
      exact ⟨hs1, hs2⟩), if_neg (by simp [hval])]
    simp only []
    rw [if_neg (by omega)]
    have hvi : is_valid_instance (mkInstance p
        (UtilsAsync.extract_patches lang g p.shortName (rd p)).1
        (UtilsAsync.extract_patches lang g p.shortName (rd p)).2.1
        (ph p).1 (ph p).2) = true := by
      simp [is_valid_instance, mkInstance, hpatch, hprob]
    rw [if_pos hvi]
    have hht : has_test_patch (mkInstance p
        (UtilsAsync.extract_patches lang g p.shortName (rd p)).1
        (UtilsAsync.extract_patches lang g p.shortName (rd p)).2.1
        (ph p).1 (ph p).2) = false := by
      simp [has_test_patch, mkInstance, htest]
    rw [hht]

/-- C6 witness: both gating conclusions at concrete candidates - one whose
diff fetch returned nothing, and one valid candidate whose diff contains
only a source-file block (so its test patch is blank). -/
theorem C6_witness :
    (process_single_pr "python" pygmentsByExt 1 (fun _ => "")
      (fun _ => ("s", "")) [] []
      { fullName := "o/r", shortName := "r", number := 5,
        mergedAt := some "m", resolvedIssues := ["9"], baseSha := "c",
        createdAt := 0 }).2 = none ∧
    (process_single_pr "python" pygmentsByExt 1
      (fun _ => "diff --git a/src/x.py b/src/x.py\n+a\n")
      (fun _ => ("s", "")) [] []
      { fullName := "o/r", shortName := "r", number := 5,
        mergedAt := some "m", resolvedIssues := ["9"], baseSha := "c",
        createdAt := 0 }).2 =
      some (mkInstance
        { fullName := "o/r", shortName := "r", number := 5,
          mergedAt := some "m", resolvedIssues := ["9"], baseSha := "c",
          createdAt := 0 }
        (UtilsAsync.extract_patches "python" pygmentsByExt "r"
          "diff --git a/src/x.py b/src/x.py\n+a\n").1
        (UtilsAsync.extract_patches "python" pygmentsByExt "r"
          "diff --git a/src/x.py b/src/x.py\n+a\n").2.1
        "s" "", false) :=
  ⟨(C6_validity_gating "python" pygmentsByExt 1 (fun _ => "")
      (fun _ => ("s", "")) [] [] _).1 (Or.inl (by decide)),
   (C6_validity_gating "python" pygmentsByExt 1
      (fun _ => "diff --git a/src/x.py b/src/x.py\n+a\n")
      (fun _ => ("s", "")) [] [] _).2 (by decide) (by decide) (by decide)
      (by decide) (by decide) (by decide)⟩

/-- C10: the classifiers report `request_success = False` exactly when the
fetched diff text is the empty string (the value the fetchers return both
for a 404 and for exhausted retries), and a candidate whose diff fetch
returned the empty string contributes nothing: no id is appended to the
successful-fetch ledger and no record is emitted, so the candidate is
retried by every later run. -/
theorem C10_empty_diff_conflation (lang : String) (g : String → String)
    (name raw : String) (cutoff : Nat) (rd : Pull → String)
    (ph : Pull → String × String) (seen succ : List String) (p : Pull) :
    ((UtilsAsync.extract_patches lang g name raw).2.2 = false ↔ raw = "") ∧
    ((Utils.extract_patches lang g name raw).2.2 = false ↔ raw = "") ∧
    (rd p = "" →
      process_single_pr lang g cutoff rd ph seen succ p = (none, none)) := by
  refine ⟨extractPatchesCore_flag _ raw, extractPatchesCore_flag _ raw, ?_⟩
  intro hrd
  unfold process_single_pr
  by_cases hskip : (seen.contains (mkId p) || succ.contains (mkId p)) = true
  · rw [if_pos hskip]
  · rw [if_neg hskip]
    by_cases hval : is_valid_pull p = true
    · rw [if_neg (by simp [hval])]
      have hex : UtilsAsync.extract_patches lang g p.shortName (rd p) =
          ("", "", false) := by
        rw [hrd]
        simp [UtilsAsync.extract_patches, extractPatchesCore]
      simp only [hex]
      by_cases hcut : cutoff ≤ p.createdAt
      · rw [if_pos hcut]
        simp
      · rw [if_neg hcut]
        have hvi : is_valid_instance (mkInstance p "" "" (ph p).1 (ph p).2) =
            false := by
          simp [is_valid_instance, mkInstance]
        rw [if_neg (show ¬(false = true) by decide),
          if_neg (by simp [hvi])]
    · rw [if_pos (by simp [hval])]

/-- C10 witness: the empty-fetch candidate contributes neither a ledger
append nor an emission. -/
theorem C10_witness :
    process_single_pr "python" pygmentsByExt 1 (fun _ => "")
      (fun _ => ("s", "")) [] []
      { fullName := "o/r", shortName := "r", number := 5,
        mergedAt := some "m", resolvedIssues := ["9"], baseSha := "c",
        createdAt := 0 } = (none, none) :=
  (C10_empty_diff_conflation "python" pygmentsByExt "r" "x" 1 (fun _ => "")
    (fun _ => ("s", "")) [] [] _).2.2 rfl

/-- C1: idempotent resume.  Running the pipeline a second time over the
same work list, with the dedup state a restart reconstructs (the ids
replayed from the superset output of the first run and the
successful-fetch ledger the first run appended), emits no instance id the
first run already emitted; and the ids the second run emits are exactly
the ids of the candidates that pass every check under the second run's
network behaviour, minus the first run's successes as recorded in the
successful-fetch ledger (which contains every emitted id). -/
theorem C1_idempotent_resume (lang : String) (g : String → String)
    (cutoff : Nat) (rd1 rd2 : Pull → String)
    (ph1 ph2 : Pull → String × String) (pulls : List Pull) :
    (∀ i, i ∈ emittedIds (runPipeline lang g cutoff rd2 ph2
        (emittedIds (runPipeline lang g cutoff rd1 ph1 [] [] pulls).1)
        (runPipeline lang g cutoff rd1 ph1 [] [] pulls).2 pulls).1 →
      i ∉ emittedIds (runPipeline lang g cutoff rd1 ph1 [] [] pulls).1) ∧
    emittedIds (runPipeline lang g cutoff rd2 ph2
        (emittedIds (runPipeline lang g cutoff rd1 ph1 [] [] pulls).1)
        (runPipeline lang g cutoff rd1 ph1 [] [] pulls).2 pulls).1 =
      ((pulls.filter (wouldEmit lang g cutoff rd2 ph2)).map mkId).filter
        (fun i =>
          !((runPipeline lang g cutoff rd1 ph1 [] [] pulls).2.contains i)) := by
  have hsub : ∀ i,
      i ∈ emittedIds (runPipeline lang g cutoff rd1 ph1 [] [] pulls).1 →
      i ∈ (runPipeline lang g cutoff rd1 ph1 [] [] pulls).2 :=
    fun i hi => emittedIds_subset_ledger lang g cutoff rd1 ph1 [] [] pulls i hi
  constructor
  · intro i hi
    rw [emittedIds_eq_filterMap] at hi
    obtain ⟨p, hp, hf⟩ := List.mem_filterMap.mp hi
    obtain ⟨ib, hib, hid⟩ := Option.map_eq_some'.mp hf
    have hns := process_single_pr_emit_not_skipped lang g cutoff rd2 ph2 hib
    obtain ⟨hinst, _⟩ := process_single_pr_emit lang g cutoff rd2 ph2 _ _ p ib hib
    intro hmem
    rw [← hid, hinst] at hmem
    have hcontains :
        (emittedIds (runPipeline lang g cutoff rd1 ph1 [] [] pulls).1).contains
          (mkId p) = false := (Bool.or_eq_false_iff.mp hns).1
    simp [hmem] at hcontains
  · rw [emittedIds_eq_filterMap, filter_map_filter]
    exact List.filterMap_congr (fun p _ =>
      resume_per_pull lang g cutoff rd2 ph2 _ _ hsub p)

/-- C1 witness: a candidate whose diff fetch failed in the first run and
succeeds in the second is emitted by the second run, and its id was not
emitted by the first. -/
theorem C1_witness :
    "o__r-5" ∉ emittedIds (runPipeline "python" pygmentsByExt 1
      (fun _ => "") (fun _ => ("", "")) [] []
      [{ fullName := "o/r", shortName := "r", number := 5,
         mergedAt := some "m", resolvedIssues := ["9"], baseSha := "c",
         createdAt := 0 }]).1 :=
  (C1_idempotent_resume "python" pygmentsByExt 1 (fun _ => "")
    (fun _ => "diff --git a/src/x.py b/src/x.py\n+a\n")
    (fun _ => ("", "")) (fun _ => ("s", ""))
    [{ fullName := "o/r", shortName := "r", number := 5,
       mergedAt := some "m", resolvedIssues := ["9"], baseSha := "c",
       createdAt := 0 }]).1 "o__r-5" (by decide)

lemma get_all_pulls_resume (Item : Type) (oracle : Nat → Nat → Option (List Item))
    (page1 : Option (List Item × Nat)) (init : Cache Item) (P : Nat) :
    ∃ res fc, get_all_pulls Item oracle page1 init (some P) = some (res, fc) ∧
      (∀ p v, init p = some v → fc p = some v) ∧
      (∀ p, (fc p).isSome = true ↔ ((init p).isSome = true ∨
        (p ∈ List.range' 1 P ∧ init p = none ∧ (firstHit oracle p).isSome = true))) ∧
      (∀ p, firstHit oracle p = none → fc p = init p) ∧
      res = (List.range' 1 P).flatMap (fun p => (fc p).getD []) := by
  refine ⟨_, _, rfl, ?_, ?_, ?_, rfl⟩
  · intro p v hv
    rw [foldl_fetch_page]
    rw [if_neg ?_]
    · exact hv
    · intro hc
      have hpn := (List.mem_filter.mp hc.1).2
      rw [hv] at hpn
      simp at hpn
  · intro p
    rw [foldl_fetch_page]
    by_cases hc : p ∈ (List.range' 1 P).filter (fun q => (init q).isNone) ∧
        (firstHit oracle p).isSome = true
    · rw [if_pos hc]
      obtain ⟨hm, hn⟩ := List.mem_filter.mp hc.1
      constructor
      · intro _
        exact Or.inr ⟨hm, by simpa using hn, hc.2⟩
      · intro _
        exact hc.2
    · rw [if_neg hc]
      constructor
      · intro hi
        exact Or.inl hi
      · intro hor
        rcases hor with hor | ⟨hm, hnone, hhit⟩
        · exact hor
        · exact absurd ⟨List.mem_filter.mpr ⟨hm, by simp [hnone]⟩, hhit⟩ hc
  · intro p hhit
    rw [foldl_fetch_page]
    rw [if_neg (fun hc => by simpa [hhit] using hc.2)]

lemma get_all_pulls_fresh (Item : Type) (oracle : Nat → Nat → Option (List Item))
    (d1 : List Item) (P : Nat) (hP : 1 ≤ P) :
    ∃ fc, get_all_pulls Item oracle (some (d1, P)) (fun _ => none) none =
      some ((List.range' 1 P).flatMap
        (fun p => if p = 1 then d1 else (firstHit oracle p).getD []), fc) := by
  by_cases hP1 : P ≤ 1
  · have hP1' : P = 1 := by omega
    subst hP1'
    refine ⟨updateCache (fun _ => none) 1 d1, ?_⟩
    simp only [get_all_pulls, if_pos (Nat.le_refl 1)]
    have : (List.range' 1 1).flatMap
        (fun p => if p = 1 then d1 else (firstHit oracle p).getD []) = d1 := by
      simp [List.range']
    rw [this]
  · simp only [get_all_pulls, if_neg hP1]
    refine ⟨((List.range' 1 P).filter
        (fun q => ((updateCache (fun _ => none) 1 d1 : Cache Item) q).isNone)).foldl
      (fetch_page oracle) (updateCache (fun _ => none) 1 d1), ?_⟩
    have hcong : ∀ p ∈ List.range' 1 P,
        ((((List.range' 1 P).filter
            (fun q => ((updateCache (fun _ => none) 1 d1 : Cache Item) q).isNone)).foldl
          (fetch_page oracle) (updateCache (fun _ => none) 1 d1)) p).getD [] =
        if p = 1 then d1 else (firstHit oracle p).getD [] := by
      intro p hp
      rw [foldl_fetch_page]
      by_cases hp1 : p = 1
      · subst hp1
        rw [if_neg ?_]
        · simp [updateCache]
        · intro hc
          have := (List.mem_filter.mp hc.1).2
          simp [updateCache] at this
      · by_cases hhit : (firstHit oracle p).isSome = true
        · rw [if_pos ⟨List.mem_filter.mpr ⟨hp, by simp [updateCache, hp1]⟩, hhit⟩,
            if_neg hp1]
        · rw [if_neg (fun hc => hhit hc.2), if_neg hp1]
          have hnone : firstHit oracle p = none := by
            cases hh : firstHit oracle p
            · rfl
            · rw [hh] at hhit
              simp at hhit
          simp [updateCache, hp1, hnone]
    rw [List.flatMap_congr hcong]

/-- C7: page-cache completeness and order, and cache-file invariants.
First conjunct (fresh run, empty cache, successful page-1 discovery of P
pages): the assembled result is the concatenation, in ascending page
order, of exactly the item lists of the pages that succeeded within their
three attempts (page 1 from the discovery fetch); failed pages contribute
nothing.  Second conjunct (any resumed run with a persisted page count):
the final cache keeps every pre-existing page file unchanged, holds a page
file exactly for pages cached before or fetched successfully now, is left
untouched at any page whose every attempt failed, and the result is
assembled from the final cache in ascending page order. -/
theorem C7_page_cache :
    (∀ (Item : Type) (oracle : Nat → Nat → Option (List Item))
      (d1 : List Item) (P : Nat), 1 ≤ P →
      ∃ fc, get_all_pulls Item oracle (some (d1, P)) (fun _ => none) none =
        some ((List.range' 1 P).flatMap
          (fun p => if p = 1 then d1 else (firstHit oracle p).getD []), fc)) ∧
    (∀ (Item : Type) (oracle : Nat → Nat → Option (List Item))
      (page1 : Option (List Item × Nat)) (init : Cache Item) (P : Nat),
      ∃ res fc, get_all_pulls Item oracle page1 init (some P) = some (res, fc) ∧
        (∀ p v, init p = some v → fc p = some v) ∧
        (∀ p, (fc p).isSome = true ↔ ((init p).isSome = true ∨
          (p ∈ List.range' 1 P ∧ init p = none ∧
            (firstHit oracle p).isSome = true))) ∧
        (∀ p, firstHit oracle p = none → fc p = init p) ∧
        res = (List.range' 1 P).flatMap (fun p => (fc p).getD [])) :=
  ⟨fun Item oracle d1 P hP => get_all_pulls_fresh Item oracle d1 P hP,
   fun Item oracle page1 init P => get_all_pulls_resume Item oracle page1 init P⟩

/-- C7 witness: both conclusions at a concrete three-page listing whose
page 2 succeeds on its second attempt and whose page 3 always fails. -/
theorem C7_witness :
    (∃ fc, get_all_pulls Nat
      (fun p k => if p = 2 ∧ k = 1 then some [7] else none)
      (some ([1], 3)) (fun _ => none) none =
      some ((List.range' 1 3).flatMap
        (fun p => if p = 1 then [1]
          else (firstHit (fun p k => if p = 2 ∧ k = 1 then some [7] else none)
            p).getD []), fc)) ∧
    (∃ res fc, get_all_pulls Nat
      (fun p k => if p = 2 ∧ k = 1 then some [7] else none)
      none (fun _ => none) (some 2) = some (res, fc) ∧
      (∀ p v, (fun _ => (none : Option (List Nat))) p = some v → fc p = some v) ∧
      (∀ p, (fc p).isSome = true ↔
        (((fun _ => (none : Option (List Nat))) p).isSome = true ∨
          (p ∈ List.range' 1 2 ∧ (fun _ => (none : Option (List Nat))) p = none ∧
            (firstHit (fun p k => if p = 2 ∧ k = 1 then some [7] else none)
              p).isSome = true))) ∧
      (∀ p, firstHit (fun p k => if p = 2 ∧ k = 1 then some [7] else none) p =
          none → fc p = (fun _ => (none : Option (List Nat))) p) ∧
      res = (List.range' 1 2).flatMap (fun p => (fc p).getD [])) :=
  ⟨C7_page_cache.1 Nat _ [1] 3 (by decide),
   C7_page_cache.2 Nat _ none (fun _ => none) 2⟩

/-- C8: rotation monotonicity.  From a freshly rotated enabled rotator
(zero request count, no session id) with a positive rotation threshold,
across any N recorded requests with N exceeding the threshold - each
request being `increment_request_count` followed by `get_proxies`, as the
fetchers issue them - the session identity takes at least two distinct
values within the first N steps, and the per-identity request counter
stays strictly below the threshold after every step (reaching at most the
threshold momentarily between the increment and the rotation inside
`get_proxies`). -/
theorem C8_rotation_monotonicity (s0 : RotState) (hen : s0.enabled = true)
    (h0 : s0.requestCount = 0) (hsid : s0.currentSessionId = none)
    (hm : 1 ≤ s0.maxRequestsPerIp)
    (N : Nat) (hN : s0.maxRequestsPerIp < N) :
    (∃ i j, 1 ≤ i ∧ i ≤ N ∧ 1 ≤ j ∧ j ≤ N ∧
      (rotTrace s0 i).currentSessionId ≠ (rotTrace s0 j).currentSessionId) ∧
    (∀ i, (rotTrace s0 i).requestCount < s0.maxRequestsPerIp ∧
      (increment_request_count (rotTrace s0 i)).requestCount ≤
        s0.maxRequestsPerIp) := by
  constructor
  · by_cases hm1 : s0.maxRequestsPerIp = 1
    · refine ⟨1, 2, by omega, by omega, by omega, by omega, ?_⟩
      rw [rotTrace_char s0 hen h0 hsid hm 1 (by omega),
        rotTrace_char s0 hen h0 hsid hm 2 (by omega)]
      rw [show s0.rotationCount + 1 / s0.maxRequestsPerIp =
          s0.rotationCount + 1 by rw [hm1],
        show s0.rotationCount + 2 / s0.maxRequestsPerIp =
          (s0.rotationCount + 1) + 1 by rw [hm1]]
      intro hc
      exact genFor_succ_ne s0.baseHash s0.randomOffset (s0.rotationCount + 1)
        (Option.some.inj hc)
    · refine ⟨1, s0.maxRequestsPerIp, by omega, by omega, by omega, by omega, ?_⟩
      rw [rotTrace_char s0 hen h0 hsid hm 1 (by omega),
        rotTrace_char s0 hen h0 hsid hm s0.maxRequestsPerIp (by omega)]
      rw [show s0.rotationCount + 1 / s0.maxRequestsPerIp = s0.rotationCount by
          rw [Nat.div_eq_of_lt (by omega)]
          omega,
        show s0.rotationCount + s0.maxRequestsPerIp / s0.maxRequestsPerIp =
          s0.rotationCount + 1 by rw [Nat.div_self (by omega)]]
      intro hc
      exact genFor_succ_ne s0.baseHash s0.randomOffset s0.rotationCount
        (Option.some.inj hc)
  · intro i
    cases i with
    | zero =>
      constructor
      · show s0.requestCount < s0.maxRequestsPerIp
        omega
      · show s0.requestCount + 1 ≤ s0.maxRequestsPerIp
        omega
    | succ i =>
      rw [rotTrace_char s0 hen h0 hsid hm (i + 1) (by omega)]
      have hlt : (i + 1) % s0.maxRequestsPerIp < s0.maxRequestsPerIp :=
        Nat.mod_lt _ (by omega)
      constructor
      · show (i + 1) % s0.maxRequestsPerIp < s0.maxRequestsPerIp
        exact hlt
      · show (i + 1) % s0.maxRequestsPerIp + 1 ≤ s0.maxRequestsPerIp
        omega

/-- C8 witness: the monotonicity conclusions for a concrete rotator with
threshold 2 over 3 recorded requests (state fields in declaration order:
request count 0, threshold 2, no session id, rotation 0, enabled,
session mode, country, password, host, port, hash 7, offset 3). -/
theorem C8_witness :
    (∃ i j, 1 ≤ i ∧ i ≤ 3 ∧ 1 ≤ j ∧ j ≤ 3 ∧
      (rotTrace (RotState.mk 0 2 none 0 true true "us" "p" "h" "8080" 7 3)
          i).currentSessionId ≠
        (rotTrace (RotState.mk 0 2 none 0 true true "us" "p" "h" "8080" 7 3)
          j).currentSessionId) ∧
    (∀ i, (rotTrace (RotState.mk 0 2 none 0 true true "us" "p" "h" "8080" 7 3)
        i).requestCount < 2 ∧
      (increment_request_count
        (rotTrace (RotState.mk 0 2 none 0 true true "us" "p" "h" "8080" 7 3)
          i)).requestCount ≤ 2) :=
  C8_rotation_monotonicity _ rfl rfl rfl (by decide) 3 (by decide)
